import Mathlib

/-!
Verification of the Mapijing voice-dialogue gateway backend.

Shallow embedding conventions:
- Byte strings (Python bytes) are lists of naturals, each below 256.
- Text strings are lists of characters; where only the UTF-8 byte form
  matters (session ids on the wire) they are byte lists.
- Fallible Python operations (struct.pack, int.to_bytes) become Option.
- The gzip and json standard-library modules are external to the
  repository; they are modelled by executable injective encodings with
  the decoder as left inverse, mirroring their interface contract.

The first part of the file holds the definitions, the second part the
theorems.
-/

/-! ## Byte-level primitives -/

/-- Big-endian 4-byte encoding of a natural number (the byte payload of
int.to_bytes(4, big) and struct.pack of an unsigned int). -/
def u32be (n : Nat) : List Nat :=
  [n / 2 ^ 24 % 256, n / 2 ^ 16 % 256, n / 2 ^ 8 % 256, n % 256]

/-- Python int.to_bytes(4, big) and struct.pack of an unsigned 32-bit int:
raises OverflowError outside the representable range, hence Option. -/
def pack_u32 (n : Nat) : Option (List Nat) :=
  if n < 2 ^ 32 then some (u32be n) else none

/-- struct.pack of a signed 32-bit big-endian int: two-complement bytes,
failure outside the representable range. -/
def pack_i32 (n : Int) : Option (List Nat) :=
  if -(2 ^ 31) ≤ n ∧ n < 2 ^ 31 then some (u32be (n % 2 ^ 32).toNat) else none

/-- int.from_bytes(b, big, signed=False); total, also on short inputs. -/
def unpack_u (l : List Nat) : Nat :=
  l.foldl (fun a b => a * 256 + b) 0

/-- Signed big-endian decode of 4 bytes (struct.unpack of a signed int,
and int.from_bytes with signed=True). -/
def unpack_i32 (l : List Nat) : Int :=
  let u := unpack_u l
  if u < 2 ^ 31 then (u : Int) else (u : Int) - 2 ^ 32

/-- Model of gzip.compress (the gzip module is outside the repository):
an injective framing that prepends the two gzip magic bytes. -/
def gzip_compress (data : List Nat) : List Nat :=
  31 :: 139 :: data

/-- Model of gzip.decompress: left inverse of the compressor, failing on
any input that does not carry the gzip magic (as the real one raises). -/
def gzip_decompress (l : List Nat) : Option (List Nat) :=
  match l with
  | a :: b :: rest => if a = 31 ∧ b = 139 then some rest else none
  | _ => none

namespace UtilsProto

/-! ## Embedding of src/backend/utils/protocol.py -/

def PROTOCOL_VERSION : Nat := 1
def HEADER_SIZE : Nat := 1

def FULL_CLIENT_REQUEST : Nat := 1
def AUDIO_ONLY_REQUEST : Nat := 2
def FULL_SERVER_RESPONSE : Nat := 9

def NO_SEQ : Nat := 0
def POSITIVE_SEQ : Nat := 1
def NEGATIVE_SEQ : Nat := 2
def NEGATIVE_SEQ_LAST : Nat := 3

def RAW : Nat := 0
def JSON : Nat := 1

def NO_COMPRESSION : Nat := 0
def GZIP : Nat := 1

/-- build_header: the 4-byte protocol header. -/
def build_header (message_type flags serialization compression : Nat) : List Nat :=
  [(PROTOCOL_VERSION <<< 4) ||| HEADER_SIZE,
   (message_type <<< 4) ||| flags,
   (serialization <<< 4) ||| compression,
   0]

/-- build_audio_only_request: staged audio frame.  Compression is applied
only when requested and the audio is non-empty; the last frame carries the
negated sequence number and the NEGATIVE_SEQ_LAST flag. -/
def build_audio_only_request (audio_data : List Nat) (seq : Int)
    (is_last : Bool) (use_compression : Bool) : Option (List Nat) :=
  let pc : List Nat × Nat :=
    if use_compression ∧ audio_data.length > 0 then (gzip_compress audio_data, GZIP)
    else (audio_data, NO_COMPRESSION)
  let flags := if is_last then NEGATIVE_SEQ_LAST else POSITIVE_SEQ
  let header := build_header AUDIO_ONLY_REQUEST flags RAW pc.2
  let seq_value : Int := if is_last then -seq else seq
  do
    let seq_bytes ← pack_i32 seq_value
    let payload_size ← pack_u32 pc.1.length
    pure (header ++ seq_bytes ++ payload_size ++ pc.1)

end UtilsProto

namespace ContextMgr

/-! ## Embedding of src/backend/services/context_manager.py -/

/-- A dialogue message (dataclass Message). -/
structure Message where
  role : String
  content : List Char
deriving DecidableEq

/-- ContextConfig; chars_per_token is a Python float, modelled by an exact
rational (the defaults 1.5 and 1.0 are exactly representable). -/
structure ContextConfig where
  max_tokens : Int
  chars_per_token : ℚ
  min_history_count : Int
deriving DecidableEq

/-- estimate_tokens: int(total_chars / chars_per_token).  The float
division is modelled exactly on rationals: the quotient equals
(total * den) / num as an exact rational, and Python int() truncates it
toward zero, which is Int.tdiv on the integer pair. -/
def estimate_tokens (cfg : ContextConfig) (messages : List Message) : Int :=
  let total : Nat := (messages.map (fun m => m.content.length)).sum
  Int.tdiv (total * cfg.chars_per_token.den) cfg.chars_per_token.num

/-- One trim step after messages.pop(0): when the new head is an assistant
message it is popped as well. -/
def pop_round (rest : List Message) : List Message :=
  match rest with
  | [] => []
  | m2 :: rest2 => if m2.role = "assistant" then rest2 else m2 :: rest2

/-- The while loop of _trim_if_needed, with an explicit fuel bound.  Each
iteration removes at least one message, so fuel = length is enough; the
fuel-exhausted and empty-list branches are unreachable whenever
min_history_count is nonnegative (with a negative floor Python would
raise IndexError on pop from an empty list instead). -/
def trim_loop (cfg : ContextConfig) : Nat → List Message → List Message
  | 0, messages => messages
  | fuel + 1, messages =>
    if estimate_tokens cfg messages > cfg.max_tokens ∧
       (messages.length : Int) > cfg.min_history_count * 2 then
      match messages with
      | [] => []
      | _ :: rest => trim_loop cfg fuel (pop_round rest)
    else messages

/-- _trim_if_needed. -/
def trim_if_needed (cfg : ContextConfig) (messages : List Message) : List Message :=
  trim_loop cfg messages.length messages

/-- add_user_message: append then trim. -/
def add_user_message (cfg : ContextConfig) (messages : List Message)
    (content : List Char) : List Message :=
  trim_if_needed cfg (messages ++ [⟨"user", content⟩])

/-- add_assistant_message: append then trim. -/
def add_assistant_message (cfg : ContextConfig) (messages : List Message)
    (content : List Char) : List Message :=
  trim_if_needed cfg (messages ++ [⟨"assistant", content⟩])

end ContextMgr

namespace TextSplitter

/-! ## Embedding of src/backend/services/text_splitter.py -/

def SENTENCE_ENDINGS : List Char := ['。', '！', '？', '；', '…', '.', '!', '?', ';']

def COMMA_MARKS : List Char := ['，', ',']

def MAX_SENTENCE_LENGTH : Nat := 50

def MIN_SENTENCE_LENGTH : Nat := 2

/-- The characters removed by Python str.strip() with no argument (ASCII
whitespace; the further Unicode space code points play no role here). -/
def is_py_space (c : Char) : Bool :=
  c = ' ' || c = '\t' || c = '\n' || c = '\r' || c = Char.ofNat 11 || c = Char.ofNat 12

def py_lstrip (s : List Char) : List Char :=
  s.dropWhile is_py_space

def py_rstrip (s : List Char) : List Char :=
  (s.reverse.dropWhile is_py_space).reverse

/-- Python str.strip(). -/
def py_strip (s : List Char) : List Char :=
  py_rstrip (py_lstrip s)

/-- The scanning loop of _try_extract_sentence: walk the buffer with the
current index and the last comma position (-1 when none).  On a sentence
ending whose stripped prefix is long enough, cut there; otherwise, past
MAX_SENTENCE_LENGTH with a comma at a positive position and a long enough
stripped prefix, cut at the comma; otherwise continue. -/
def try_extract_aux (buffer : List Char) : List Char → Nat → Int →
    Option (List Char × List Char)
  | [], _, _ => none
  | c :: todo, i, last_comma =>
    let lc2 : Int := if c ∈ COMMA_MARKS then (i : Int) else last_comma
    if c ∈ SENTENCE_ENDINGS ∧
       (py_strip (buffer.take (i + 1))).length ≥ MIN_SENTENCE_LENGTH then
      some (py_strip (buffer.take (i + 1)), buffer.drop (i + 1))
    else if i ≥ MAX_SENTENCE_LENGTH ∧ lc2 > 0 ∧
            (py_strip (buffer.take (lc2.toNat + 1))).length ≥ MIN_SENTENCE_LENGTH then
      some (py_strip (buffer.take (lc2.toNat + 1)), buffer.drop (lc2.toNat + 1))
    else try_extract_aux buffer todo (i + 1) lc2

/-- _try_extract_sentence. -/
def try_extract_sentence (buffer : List Char) : Option (List Char × List Char) :=
  try_extract_aux buffer buffer 0 (-1)

/-- The while loop of feed, with fuel.  Every successful extraction
strictly shortens the buffer, so fuel = length covers every iteration the
Python loop performs. -/
def feed_loop : Nat → List Char → List (List Char) × List Char
  | 0, buffer => ([], buffer)
  | fuel + 1, buffer =>
    match try_extract_sentence buffer with
    | some (s, rest) =>
      let p := feed_loop fuel rest
      (s :: p.1, p.2)
    | none => ([], buffer)

/-- feed: append the chunk to the buffer and extract sentences until no
more can be extracted; returns the yielded sentences and the new buffer. -/
def feed (buffer text : List Char) : List (List Char) × List Char :=
  feed_loop (buffer ++ text).length (buffer ++ text)

/-- flush: the stripped remaining buffer, or None when it strips to
nothing. -/
def flush (buffer : List Char) : Option (List Char) :=
  if py_strip buffer = [] then none else some (py_strip buffer)

/-- The non-whitespace characters of a string, in order. -/
def non_ws (s : List Char) : List Char :=
  s.filter (fun c => !is_py_space c)

end TextSplitter

namespace EmotionParser

/-! ## Embedding of src/backend/services/emotion_parser.py -/

def VALID_EMOTIONS : List (List Char) :=
  ["默认陪伴".toList, "共情倾听".toList, "安慰支持".toList, "轻松愉悦".toList]

def DEFAULT_EMOTION : List Char := "默认陪伴".toList

/-- First index at which pat occurs as a contiguous substring. -/
def find_sub (pat : List Char) : List Char → Option Nat
  | [] => if pat.isPrefixOf ([] : List Char) then some 0 else none
  | c :: t => if pat.isPrefixOf (c :: t) then some 0 else (find_sub pat t).map (· + 1)

/-- re.search of the lazy DOTALL pattern openT(.*?)closeT, returning the
match start, the first capture group and the match end.  The engine takes
the leftmost start where openT matches and some closeT follows, and the
lazy group stops at the first closeT after the openT; when the first openT
occurrence has no closeT after it, no later start can match either, since
every closeT occurrence after a later openT also lies after the first. -/
def find_lazy_match (openT closeT s : List Char) : Option (Nat × List Char × Nat) :=
  match find_sub openT s with
  | none => none
  | some i =>
    let after := s.drop (i + openT.length)
    match find_sub closeT after with
    | none => none
    | some j => some (i, after.take j, i + openT.length + j + closeT.length)

/-- The emotion-tag search (EMOTION_PATTERN.search, group 1). -/
def emotion_search (raw : List Char) : Option (List Char) :=
  (find_lazy_match "<emotion>".toList "</emotion>".toList raw).map (fun r => r.2.1)

/-- _extract_emotion: the stripped group when present and in the allowed
enum, the default emotion otherwise. -/
def extract_emotion (raw : List Char) : List Char :=
  match emotion_search raw with
  | some g =>
    let e := TextSplitter.py_strip g
    if e ∈ VALID_EMOTIONS then e else DEFAULT_EMOTION
  | none => DEFAULT_EMOTION

/-- re.sub of the lazy pattern with the empty replacement: remove the
leftmost match and continue after its end, with fuel (each removed match
consumes at least one character). -/
def remove_matches (openT closeT : List Char) : Nat → List Char → List Char
  | 0, s => s
  | fuel + 1, s =>
    match find_lazy_match openT closeT s with
    | none => s
    | some r => s.take r.1 ++ remove_matches openT closeT fuel (s.drop r.2.2)

/-- _extract_content: the stripped content group when present; otherwise
the raw text with emotion tags removed and stripped, or the stripped raw
text when that is empty. -/
def extract_content (raw : List Char) : List Char :=
  match find_lazy_match "<content>".toList "</content>".toList raw with
  | some r => TextSplitter.py_strip r.2.1
  | none =>
    let fallback := TextSplitter.py_strip
      (remove_matches "<emotion>".toList "</emotion>".toList raw.length raw)
    if fallback ≠ [] then fallback else TextSplitter.py_strip raw

/-- ParsedResponse dataclass. -/
structure ParsedResponse where
  content : List Char
  emotion : List Char
  is_valid : Bool
deriving DecidableEq

/-- EmotionParser.parse. -/
def parse (raw : List Char) : ParsedResponse :=
  { content := extract_content raw
    emotion := extract_emotion raw
    is_valid := !(extract_content raw).isEmpty }

end EmotionParser

/-! ## Model of the json module -/

/-- Model of a Python JSON value as handed to json.dumps: strings are
their UTF-8 byte lists, numbers are integers, and objects are association
lists built into the inductive so that recursion stays plain. -/
inductive Json where
  | jstr (s : List Nat)
  | jnum (n : Int)
  | jobj_nil
  | jobj_cons (key : List Nat) (val : Json) (rest : Json)
deriving DecidableEq

/-- Unary length marker used by the modelled serializer. -/
def enc_nat (n : Nat) : List Nat :=
  List.replicate n 1 ++ [0]

/-- Reads a unary length marker. -/
def dec_nat : List Nat → Option (Nat × List Nat)
  | [] => none
  | 0 :: rest => some (0, rest)
  | (_ + 1) :: rest => (dec_nat rest).map (fun p => (p.1 + 1, p.2))

/-- Splits off exactly n bytes when available. -/
def take_exact (n : Nat) (l : List Nat) : Option (List Nat × List Nat) :=
  if n ≤ l.length then some (l.take n, l.drop n) else none

/-- Model of json.dumps followed by encode (the json module is external
to the repository): an injective byte encoding of the JSON value, with
json_loads as its left inverse. -/
def json_dumps : Json → List Nat
  | .jstr s => 2 :: (enc_nat s.length ++ s)
  | .jnum n => 3 :: (if n < 0 then 1 else 0) :: enc_nat n.natAbs
  | .jobj_nil => [4]
  | .jobj_cons k v r => 5 :: (enc_nat k.length ++ k ++ json_dumps v ++ json_dumps r)

/-- Decoder for the modelled encoding, with fuel (every constructor
consumes at least one byte). -/
def json_loads_aux : Nat → List Nat → Option (Json × List Nat)
  | 0, _ => none
  | _ + 1, [] => none
  | fuel + 1, b :: rest =>
    if b = 2 then
      match dec_nat rest with
      | none => none
      | some (n, r2) =>
        match take_exact n r2 with
        | none => none
        | some (s, r3) => some (.jstr s, r3)
    else if b = 3 then
      match rest with
      | [] => none
      | sign :: r2 =>
        match dec_nat r2 with
        | none => none
        | some (n, r3) =>
          some (.jnum (if sign = 1 then -(n : Int) else (n : Int)), r3)
    else if b = 4 then some (.jobj_nil, rest)
    else if b = 5 then
      match dec_nat rest with
      | none => none
      | some (n, r2) =>
        match take_exact n r2 with
        | none => none
        | some (k, r3) =>
          match json_loads_aux fuel r3 with
          | none => none
          | some (v, r4) =>
            match json_loads_aux fuel r4 with
            | none => none
            | some (r, r5) => some (.jobj_cons k v r, r5)
    else none

/-- Model of bytes.decode followed by json.loads: fails (as the Python
pair raises) on anything that is not a serialized JSON value. -/
def json_loads (b : List Nat) : Option Json :=
  match json_loads_aux (b.length + 1) b with
  | some (j, []) => some j
  | _ => none

namespace E2EProto

/-! ## Embedding of src/backend/services/e2e/protocol.py -/

def PROTOCOL_VERSION : Nat := 1
def DEFAULT_HEADER_SIZE : Nat := 1

def CLIENT_FULL_REQUEST : Nat := 1
def CLIENT_AUDIO_ONLY_REQUEST : Nat := 2
def SERVER_FULL_RESPONSE : Nat := 9
def SERVER_ACK : Nat := 11
def SERVER_ERROR_RESPONSE : Nat := 15

def NO_SEQUENCE : Nat := 0
def POS_SEQUENCE : Nat := 1
def NEG_SEQUENCE : Nat := 2
def MSG_WITH_EVENT : Nat := 4

def NO_SERIALIZATION : Nat := 0
def JSON_SERIALIZATION : Nat := 1

def NO_COMPRESSION : Nat := 0
def GZIP_COMPRESSION : Nat := 1

def EVENT_START_CONNECTION : Nat := 1
def EVENT_START_SESSION : Nat := 100
def EVENT_FINISH_SESSION : Nat := 102
def EVENT_TASK_REQUEST : Nat := 200
def EVENT_SAY_HELLO : Nat := 300
def EVENT_CHAT_TEXT_QUERY : Nat := 501
def EVENT_SESSION_STARTED : Nat := 150
def EVENT_TTS_RESPONSE : Nat := 352
def EVENT_ASR_INFO : Nat := 450

/-- generate_header: the 4-byte protocol header. -/
def generate_header (version message_type message_type_specific_flags
    serial_method compression_type reserved_data : Nat) : List Nat :=
  [(version <<< 4) ||| DEFAULT_HEADER_SIZE,
   (message_type <<< 4) ||| message_type_specific_flags,
   (serial_method <<< 4) ||| compression_type,
   reserved_data]

/-- build_event_frame: session ids are modelled as their UTF-8 bytes; the
source writes the character count as the length field, which coincides
with the byte count for the ASCII UUID session ids it generates. -/
def build_event_frame (event_id : Nat) (session_id : List Nat) (payload : Json)
    (message_type serial_method : Nat) : Option (List Nat) := do
  let header := generate_header PROTOCOL_VERSION message_type MSG_WITH_EVENT
    serial_method GZIP_COMPRESSION 0
  let eb ← pack_u32 event_id
  let sid_part ←
    if 100 ≤ event_id then do
      let lb ← pack_u32 session_id.length
      pure (lb ++ session_id)
    else pure ([] : List Nat)
  let payload_bytes := gzip_compress (json_dumps payload)
  let plb ← pack_u32 payload_bytes.length
  pure (header ++ eb ++ sid_part ++ plb ++ payload_bytes)

/-- build_audio_frame: audio frame with event id and session id; the
payload is always gzip-compressed. -/
def build_audio_frame (event_id : Nat) (session_id : List Nat)
    (audio_data : List Nat) : Option (List Nat) := do
  let header := generate_header PROTOCOL_VERSION CLIENT_AUDIO_ONLY_REQUEST
    MSG_WITH_EVENT NO_SERIALIZATION GZIP_COMPRESSION 0
  let eb ← pack_u32 event_id
  let lb ← pack_u32 session_id.length
  let payload_bytes := gzip_compress audio_data
  let plb ← pack_u32 payload_bytes.length
  pure (header ++ eb ++ (lb ++ session_id) ++ plb ++ payload_bytes)

/-- The value bound to payload_msg in the parsed result: Python None,
raw bytes, a decoded JSON value, or text decoded with errors ignored
(modelled by its bytes). -/
inductive PyVal where
  | pyNone
  | pyBytes (b : List Nat)
  | pyJson (j : Json)
  | pyStr (s : List Nat)
deriving DecidableEq

/-- The dict returned by parse_response; a field holds none when the key
is absent. -/
structure ParseResult where
  message_type : Option String
  seq : Option Nat
  event : Option Nat
  session_id : Option (List Nat)
  payload_size : Option Nat
  code : Option Nat
  payload_msg : Option PyVal
deriving DecidableEq

def ParseResult.empty : ParseResult :=
  ⟨none, none, none, none, none, none, none⟩

/-- A Python argument that may be a str instead of bytes. -/
inductive PyInput where
  | str (s : List Char)
  | bytes (b : List Nat)

/-- The serialization stage of the final try block: JSON decoding falls
back to the bytes bound at that point when it raises, NO_SERIALIZATION
keeps the bytes, anything else decodes text with errors ignored. -/
def decode_stage2 (ser : Nat) (d : List Nat) : PyVal :=
  if ser = JSON_SERIALIZATION then
    match json_loads d with
    | none => PyVal.pyBytes d
    | some j => PyVal.pyJson j
  else if ser = NO_SERIALIZATION then PyVal.pyBytes d
  else PyVal.pyStr d

/-- The decompression stage of the final try block: a gzip failure keeps
the raw bytes (the except arm leaves payload_msg at its current value). -/
def decode_payload (ser comp : Nat) (pm : List Nat) : PyVal :=
  if comp = GZIP_COMPRESSION then
    match gzip_decompress pm with
    | none => PyVal.pyBytes pm
    | some d => decode_stage2 ser d
  else decode_stage2 ser pm

/-- result payload_msg: None stays None, empty bytes are kept unparsed,
anything else goes through the decompress/deserialize try block. -/
def finalize_payload (ser comp : Nat) (pm : Option (List Nat)) : PyVal :=
  match pm with
  | Option.none => PyVal.pyNone
  | some b => if 0 < b.length then decode_payload ser comp b else PyVal.pyBytes b

/-- The SERVER_FULL_RESPONSE / SERVER_ACK branch of parse_response.
Both optional sequence and event are read from the same first four bytes
of the payload, as in the source. -/
def parse_server (message_type flags ser comp : Nat) (payload0 : List Nat) : ParseResult :=
  let mt : String :=
    if message_type = SERVER_FULL_RESPONSE then "SERVER_FULL_RESPONSE" else "SERVER_ACK"
  let seqv : Option Nat :=
    if flags &&& NEG_SEQUENCE > 0 then some (unpack_u (payload0.take 4)) else none
  let start1 : Nat := if flags &&& NEG_SEQUENCE > 0 then 4 else 0
  let eventv : Option Nat :=
    if flags &&& MSG_WITH_EVENT > 0 then some (unpack_u (payload0.take 4)) else none
  let start2 : Nat := if flags &&& MSG_WITH_EVENT > 0 then start1 + 4 else start1
  let payload1 := payload0.drop start2
  let sp : Option (List Nat) × List Nat :=
    if 4 ≤ payload1.length then
      let sid_size : Int := unpack_i32 (payload1.take 4)
      if 0 < sid_size ∧ 4 + sid_size ≤ (payload1.length : Int) then
        (some ((payload1.drop 4).take sid_size.toNat), payload1.drop (4 + sid_size.toNat))
      else (none, payload1)
    else (none, payload1)
  let pp : Option Nat × Option (List Nat) :=
    if 4 ≤ sp.2.length then (some (unpack_u (sp.2.take 4)), some (sp.2.drop 4))
    else (none, none)
  { message_type := some mt, seq := seqv, event := eventv, session_id := sp.1,
    payload_size := pp.1, code := none,
    payload_msg := some (finalize_payload ser comp pp.2) }

/-- The SERVER_ERROR_RESPONSE branch of parse_response. -/
def parse_error (ser comp : Nat) (payload0 : List Nat) : ParseResult :=
  let codev : Option Nat :=
    if 4 ≤ payload0.length then some (unpack_u (payload0.take 4)) else none
  let pp : Option Nat × Option (List Nat) :=
    if 8 ≤ payload0.length then
      (some (unpack_u ((payload0.drop 4).take 4)), some (payload0.drop 8))
    else (none, none)
  { message_type := some "SERVER_ERROR", seq := none, event := none, session_id := none,
    payload_size := pp.1, code := codev,
    payload_msg := some (finalize_payload ser comp pp.2) }

/-- parse_response: a str input and an input below four bytes give the
empty dict; server frames are parsed by branch, any other message type
gives the empty dict.  The function is total by construction, mirroring
that the Python function catches every payload-parsing exception. -/
def parse_response (res : PyInput) : ParseResult :=
  match res with
  | .str _ => ParseResult.empty
  | .bytes (b0 :: b1 :: b2 :: b3 :: rest) =>
    let header_size := b0 &&& 15
    let message_type := b1 >>> 4
    let flags := b1 &&& 15
    let ser := b2 >>> 4
    let comp := b2 &&& 15
    let payload0 := (b0 :: b1 :: b2 :: b3 :: rest).drop (header_size * 4)
    if message_type = SERVER_FULL_RESPONSE ∨ message_type = SERVER_ACK then
      parse_server message_type flags ser comp payload0
    else if message_type = SERVER_ERROR_RESPONSE then
      parse_error ser comp payload0
    else ParseResult.empty
  | .bytes _ => ParseResult.empty

end E2EProto

namespace E2EClient

/-! ## Embedding of src/backend/services/e2e/client.py (send_audio) -/

/-- The client state relevant to send_audio: the _ws reference (present or
not), the _connected and _session_started flags, and the session id (as
its UTF-8 bytes). -/
structure ClientState where
  has_ws : Bool
  connected : Bool
  session_started : Bool
  session_id : List Nat
deriving DecidableEq

/-- send_audio: returns the frames sent on the socket and the state after
the call; none models a propagated exception from frame building.  The
guards mirror the source: without a socket or connection, or without a
started session, nothing is sent (only a warning is logged), and the
method never mutates the client state. -/
def send_audio (st : ClientState) (audio_data : List Nat) :
    Option (ClientState × List (List Nat)) :=
  if ¬st.has_ws ∨ ¬st.connected then some (st, [])
  else if ¬st.session_started then some (st, [])
  else
    match E2EProto.build_audio_frame E2EProto.EVENT_TASK_REQUEST st.session_id audio_data with
    | none => none
    | some f => some (st, [f])

end E2EClient

namespace Gateway

/-! ## Embedding of src/backend/api/e2e_websocket.py -/

/-- The normalized events produced by the dialogue service
(E2EDialogService receive_responses), consumed by the forwarder. -/
inductive NEvent where
  | asr_started
  | asr_result (text : List Char) (is_final : Bool)
  | asr_ended
  | chat_text (text : List Char)
  | chat_ended
  | tts_start (tts_type : List Char)
  | tts_chunk (audio : List Char)
  | tts_ended
  | error (message : List Char) (is_fatal : Bool)
  | other
deriving DecidableEq

/-- The envelopes the forwarder sends to the client. -/
inductive OutMsg where
  | asr_result (text : List Char) (is_final : Bool)
  | asr_end
  | chat_text (text : List Char)
  | tts_chunk (audio : List Char) (seq : Nat)
  | tts_end (full_text : List Char)
  | error_out (message : List Char)
deriving DecidableEq

/-- The per-connection forwarder state: tts_seq and full_chat_text. -/
structure FwdState where
  tts_seq : Nat
  full_chat_text : List Char
deriving DecidableEq

/-- One iteration of _receive_responses: the new state, the envelopes
sent, and whether the loop continues (a fatal error returns). -/
def fwd_step (st : FwdState) (e : NEvent) : FwdState × List OutMsg × Bool :=
  match e with
  | .asr_started => (⟨0, []⟩, [], true)
  | .asr_result t f => (st, [.asr_result t f], true)
  | .asr_ended => (st, [.asr_end], true)
  | .chat_text t => (⟨st.tts_seq, st.full_chat_text ++ t⟩, [.chat_text t], true)
  | .chat_ended => (st, [], true)
  | .tts_start _ => (st, [], true)
  | .tts_chunk a =>
    if a ≠ [] then (⟨st.tts_seq + 1, st.full_chat_text⟩, [.tts_chunk a st.tts_seq], true)
    else (st, [], true)
  | .tts_ended => (⟨0, []⟩, [.tts_end st.full_chat_text], true)
  | .error m fatal => if fatal then (st, [.error_out m], false) else (st, [], true)
  | .other => (st, [], true)

/-- The forwarder loop over a normalized event stream: the envelopes
sent, the final state and whether the loop is still alive. -/
def fwd_run (st : FwdState) : List NEvent → List OutMsg × FwdState × Bool
  | [] => ([], st, true)
  | e :: rest =>
    let r := fwd_step st e
    if r.2.2 then
      let q := fwd_run r.1 rest
      (r.2.1 ++ q.1, q.2)
    else (r.2.1, r.1, false)

/-- The seq fields of the tts_chunk envelopes, in emission order. -/
def chunk_seqs (outs : List OutMsg) : List Nat :=
  outs.filterMap (fun o => match o with | .tts_chunk _ s => some s | _ => none)

/-- The number of tts_chunk events with non-empty audio (only these emit
an envelope and advance tts_seq). -/
def audible_chunks (events : List NEvent) : Nat :=
  (events.filter (fun e => match e with | .tts_chunk a => !a.isEmpty | _ => false)).length

/-- Events that reset tts_seq (asr_started, tts_ended) or abort the loop
(a fatal error). -/
def is_reset_or_fatal (e : NEvent) : Bool :=
  match e with
  | .asr_started => true
  | .tts_ended => true
  | .error _ fatal => fatal
  | _ => false

/-- An event segment lying strictly inside one turn. -/
def turn_segment (events : List NEvent) : Prop :=
  ∀ e ∈ events, is_reset_or_fatal e = false

/-! ### The reader side: client JSON decoding (e2e_websocket_endpoint).

The json module is external to the repository; json.loads on the client
text frame is modelled by a recursive-descent parser for the JSON grammar
(strings with escape skipping, integers, literals, arrays, objects),
returning a Python-style error description on failure. -/

/-- Parsed client JSON value. -/
inductive JText where
  | jnull
  | jbool (b : Bool)
  | jnum (n : Int)
  | jstr (s : List Char)
  | jarr_nil
  | jarr_cons (head : JText) (tail : JText)
  | jobj_nil
  | jobj_cons (key : List Char) (val : JText) (rest : JText)
deriving DecidableEq

def skip_ws (s : List Char) : List Char :=
  s.dropWhile (fun c => c = ' ' || c = '\t' || c = '\n' || c = '\r')

/-- Reads a string body after the opening quote, up to the closing quote;
a backslash makes the next character literal. -/
def parse_string_body : Nat → List Char → Option (List Char × List Char)
  | 0, _ => none
  | _ + 1, [] => none
  | fuel + 1, c :: rest =>
    if c = Char.ofNat 34 then some ([], rest)
    else if c = Char.ofNat 92 then
      match rest with
      | [] => none
      | e :: rest2 => (parse_string_body fuel rest2).map (fun p => (e :: p.1, p.2))
    else (parse_string_body fuel rest).map (fun p => (c :: p.1, p.2))

/-- Reads a non-empty digit run as a natural number. -/
def parse_digits (s : List Char) : Option (Nat × List Char) :=
  let ds := s.takeWhile (fun c => c.isDigit)
  if ds = [] then none
  else some (ds.foldl (fun a c => a * 10 + (c.toNat - 48)) 0, s.dropWhile (fun c => c.isDigit))

mutual

def parse_jvalue : Nat → List Char → Except (List Char) (JText × List Char)
  | 0, _ => .error "Expecting value".toList
  | fuel + 1, s =>
    match skip_ws s with
    | [] => .error "Expecting value".toList
    | c :: rest =>
      if c = Char.ofNat 123 then
        match skip_ws rest with
        | d :: rest2 =>
          if d = Char.ofNat 125 then .ok (.jobj_nil, rest2)
          else parse_members fuel (d :: rest2)
        | [] => .error "Expecting property name enclosed in double quotes".toList
      else if c = Char.ofNat 91 then
        match skip_ws rest with
        | d :: rest2 =>
          if d = Char.ofNat 93 then .ok (.jarr_nil, rest2)
          else parse_items fuel (d :: rest2)
        | [] => .error "Expecting value".toList
      else if c = Char.ofNat 34 then
        match parse_string_body fuel rest with
        | none => .error "Unterminated string starting at".toList
        | some (str, rest2) => .ok (.jstr str, rest2)
      else if c = Char.ofNat 116 then
        if "rue".toList.isPrefixOf rest then .ok (.jbool true, rest.drop 3)
        else .error "Expecting value".toList
      else if c = Char.ofNat 102 then
        if "alse".toList.isPrefixOf rest then .ok (.jbool false, rest.drop 4)
        else .error "Expecting value".toList
      else if c = Char.ofNat 110 then
        if "ull".toList.isPrefixOf rest then .ok (.jnull, rest.drop 3)
        else .error "Expecting value".toList
      else if c = Char.ofNat 45 then
        match parse_digits rest with
        | none => .error "Expecting value".toList
        | some (n, rest2) => .ok (.jnum (-(n : Int)), rest2)
      else
        match parse_digits (c :: rest) with
        | none => .error "Expecting value".toList
        | some (n, rest2) => .ok (.jnum (n : Int), rest2)

def parse_members : Nat → List Char → Except (List Char) (JText × List Char)
  | 0, _ => .error "Expecting property name enclosed in double quotes".toList
  | fuel + 1, s =>
    match skip_ws s with
    | c :: rest =>
      if c = Char.ofNat 34 then
        match parse_string_body fuel rest with
        | none => .error "Unterminated string starting at".toList
        | some (key, rest2) =>
          match skip_ws rest2 with
          | d :: rest3 =>
            if d = Char.ofNat 58 then
              match parse_jvalue fuel rest3 with
              | .error e => .error e
              | .ok (v, rest4) =>
                match skip_ws rest4 with
                | d2 :: rest5 =>
                  if d2 = Char.ofNat 44 then
                    match parse_members fuel rest5 with
                    | .error e => .error e
                    | .ok (r, rest6) => .ok (.jobj_cons key v r, rest6)
                  else if d2 = Char.ofNat 125 then .ok (.jobj_cons key v .jobj_nil, rest5)
                  else .error "Expecting comma delimiter".toList
                | [] => .error "Expecting comma delimiter".toList
            else .error "Expecting colon delimiter".toList
          | [] => .error "Expecting colon delimiter".toList
      else .error "Expecting property name enclosed in double quotes".toList
    | [] => .error "Expecting property name enclosed in double quotes".toList

def parse_items : Nat → List Char → Except (List Char) (JText × List Char)
  | 0, _ => .error "Expecting value".toList
  | fuel + 1, s =>
    match parse_jvalue fuel s with
    | .error e => .error e
    | .ok (v, rest) =>
      match skip_ws rest with
      | d :: rest2 =>
        if d = Char.ofNat 44 then
          match parse_items fuel rest2 with
          | .error e => .error e
          | .ok (r, rest3) => .ok (.jarr_cons v r, rest3)
        else if d = Char.ofNat 93 then .ok (.jarr_cons v .jarr_nil, rest2)
        else .error "Expecting comma delimiter".toList
      | [] => .error "Expecting comma delimiter".toList

end

/-- Model of json.loads on the client text frame: parse one value and
reject trailing data. -/
def json_loads_text (s : List Char) : Except (List Char) JText :=
  match parse_jvalue (s.length + 1) s with
  | .error e => .error e
  | .ok (v, rest) => if skip_ws rest = [] then .ok v else .error "Extra data".toList

def UNKNOWN_ERROR : List Char := "UNKNOWN_ERROR".toList

/-- The outcome of one reader-loop iteration: either an error envelope was
sent back, or the decoded message went to handle_e2e_message. -/
inductive ClientOutcome where
  | error_sent (code : List Char) (message : List Char)
  | handled (msg : JText)
deriving DecidableEq

/-- One iteration of the reader loop in e2e_websocket_endpoint: decode the
text frame; on a JSON decode error, send an error envelope with code
UNKNOWN_ERROR and the Chinese message prefix, and keep the loop running
(the Bool is whether the loop continues to the next receive). -/
def process_client_text (raw : List Char) : ClientOutcome × Bool :=
  match json_loads_text raw with
  | .ok j => (.handled j, true)
  | .error e => (.error_sent UNKNOWN_ERROR ("无效的 JSON 格式: ".toList ++ e), true)

end Gateway

/-! # Theorems -/

theorem unpack_u_u32be (n : Nat) (h : n < 2 ^ 32) : unpack_u (u32be n) = n := by
  simp only [unpack_u, u32be, List.foldl]
  omega

theorem unpack_i32_u32be_emod (n : Int) (h1 : -(2 ^ 31) ≤ n) (h2 : n < 2 ^ 31) :
    unpack_i32 (u32be (n % 2 ^ 32).toNat) = n := by
  have hm : (n % 2 ^ 32).toNat < 2 ^ 32 := by omega
  simp only [unpack_i32, unpack_u_u32be _ hm]
  omega

theorem gzip_roundtrip (data : List Nat) :
    gzip_decompress (gzip_compress data) = some data := by
  simp [gzip_compress, gzip_decompress]

theorem gzip_decompress_some (l d : List Nat) (h : gzip_decompress l = some d) :
    l = gzip_compress d := by
  rcases l with _ | ⟨a, _ | ⟨b, rest⟩⟩ <;> simp [gzip_decompress] at h
  obtain ⟨⟨ha, hb⟩, hr⟩ := h
  simp [gzip_compress, ha, hb, hr]

theorem pack_i32_eq (n : Int) (h1 : -(2 ^ 31) ≤ n) (h2 : n < 2 ^ 31) :
    pack_i32 n = some (u32be (n % 2 ^ 32).toNat) := by
  simp only [pack_i32]
  rw [if_pos ⟨h1, h2⟩]

theorem pack_u32_eq (n : Nat) (h : n < 2 ^ 32) :
    pack_u32 n = some (u32be n) := by
  simp only [pack_u32]
  rw [if_pos h]

namespace UtilsProto

theorem build_audio_compressed (audio : List Nat) (seq : Int) (is_last : Bool)
    (hne : audio ≠ []) (hsz : audio.length + 2 < 2 ^ 32)
    (h1 : -(2 ^ 31) ≤ (if is_last then -seq else seq))
    (h2 : (if is_last then -seq else seq) < 2 ^ 31) :
    build_audio_only_request audio seq is_last true =
      some (build_header AUDIO_ONLY_REQUEST (if is_last then NEGATIVE_SEQ_LAST else POSITIVE_SEQ)
              RAW GZIP ++
            u32be (((if is_last then -seq else seq) % 2 ^ 32).toNat) ++
            u32be (audio.length + 2) ++ gzip_compress audio) := by
  have hlen : audio.length > 0 := List.length_pos.mpr hne
  have hc : True ∧ audio.length > 0 := ⟨trivial, hlen⟩
  have hgl : (gzip_compress audio).length = audio.length + 2 := by
    simp [gzip_compress]
  simp only [build_audio_only_request]
  rw [if_pos hc]
  simp [hgl, pack_i32_eq _ h1 h2, pack_u32_eq _ hsz]

theorem build_audio_uncompressed_empty (seq : Int) (is_last : Bool)
    (h1 : -(2 ^ 31) ≤ (if is_last then -seq else seq))
    (h2 : (if is_last then -seq else seq) < 2 ^ 31) :
    build_audio_only_request [] seq is_last true =
      some (build_header AUDIO_ONLY_REQUEST (if is_last then NEGATIVE_SEQ_LAST else POSITIVE_SEQ)
              RAW NO_COMPRESSION ++
            u32be (((if is_last then -seq else seq) % 2 ^ 32).toNat) ++
            u32be 0 ++ []) := by
  have hc : ¬ (True ∧ (0 : Nat) > 0) := by simp
  simp only [build_audio_only_request, List.length_nil]
  rw [if_neg hc]
  simp [pack_i32_eq _ h1 h2, pack_u32_eq 0 (by norm_num)]

theorem build_audio_uncompressed (audio : List Nat) (seq : Int) (is_last : Bool)
    (hsz : audio.length < 2 ^ 32)
    (h1 : -(2 ^ 31) ≤ (if is_last then -seq else seq))
    (h2 : (if is_last then -seq else seq) < 2 ^ 31) :
    build_audio_only_request audio seq is_last false =
      some (build_header AUDIO_ONLY_REQUEST (if is_last then NEGATIVE_SEQ_LAST else POSITIVE_SEQ)
              RAW NO_COMPRESSION ++
            u32be (((if is_last then -seq else seq) % 2 ^ 32).toNat) ++
            u32be audio.length ++ audio) := by
  have hc : ¬ (false = true ∧ audio.length > 0) := by simp
  simp only [build_audio_only_request]
  rw [if_neg hc]
  simp [pack_i32_eq _ h1 h2, pack_u32_eq _ hsz]

end UtilsProto

theorem drop4_of_append (a b : List Nat) (ha : a.length = 4) : (a ++ b).drop 4 = b := by
  rw [← ha]
  exact List.drop_left _ _

theorem take4_of_append (a b : List Nat) (ha : a.length = 4) : (a ++ b).take 4 = a := by
  rw [← ha]
  exact List.take_left _ _

theorem frame4_drop4 (h s p t : List Nat) (hh : h.length = 4) :
    (h ++ s ++ p ++ t).drop 4 = s ++ p ++ t := by
  have e : h ++ s ++ p ++ t = h ++ (s ++ p ++ t) := by simp [List.append_assoc]
  rw [e, drop4_of_append _ _ hh]

theorem frame4_seq_field (h s p t : List Nat) (hh : h.length = 4) (hs : s.length = 4) :
    ((h ++ s ++ p ++ t).drop 4).take 4 = s := by
  rw [frame4_drop4 _ _ _ _ hh]
  have e : s ++ p ++ t = s ++ (p ++ t) := by simp [List.append_assoc]
  rw [e, take4_of_append _ _ hs]

theorem frame4_size_field (h s p t : List Nat) (hh : h.length = 4) (hs : s.length = 4)
    (hp : p.length = 4) : ((h ++ s ++ p ++ t).drop 8).take 4 = p := by
  have e : h ++ s ++ p ++ t = h ++ (s ++ (p ++ t)) := by simp [List.append_assoc]
  have e8 : (h ++ (s ++ (p ++ t))).drop 8 = ((h ++ (s ++ (p ++ t))).drop 4).drop 4 := by
    rw [List.drop_drop]
  rw [e, e8, drop4_of_append _ _ hh, drop4_of_append _ _ hs, take4_of_append _ _ hp]

theorem frame4_payload (h s p t : List Nat) (hh : h.length = 4) (hs : s.length = 4)
    (hp : p.length = 4) : (h ++ s ++ p ++ t).drop 12 = t := by
  have e : h ++ s ++ p ++ t = h ++ (s ++ (p ++ t)) := by simp [List.append_assoc]
  have e12 : (h ++ (s ++ (p ++ t))).drop 12 =
      (((h ++ (s ++ (p ++ t))).drop 4).drop 4).drop 4 := by
    rw [List.drop_drop, List.drop_drop]
  rw [e, e12, drop4_of_append _ _ hh, drop4_of_append _ _ hs, drop4_of_append _ _ hp]

theorem frame4_byte (h s p t : List Nat) (hh : h.length = 4) (n : Nat) (hn : n < 4) :
    (h ++ s ++ p ++ t)[n]? = h[n]? := by
  have e : h ++ s ++ p ++ t = h ++ (s ++ (p ++ t)) := by simp [List.append_assoc]
  rw [e, List.getElem?_append_left (by omega)]

namespace UtilsProto

theorem u32be_length (n : Nat) : (u32be n).length = 4 := rfl

theorem build_header_length (a b c d : Nat) : (build_header a b c d).length = 4 := rfl

theorem audio_frame_fields (audio : List Nat) (seq : Int) (is_last : Bool)
    (hne : audio ≠ []) (hsz : audio.length + 2 < 2 ^ 32)
    (h1 : -(2 ^ 31) ≤ (if is_last then -seq else seq))
    (h2 : (if is_last then -seq else seq) < 2 ^ 31) :
    ∃ f, build_audio_only_request audio seq is_last true = some f ∧
      f[1]?.getD 0 % 16 = (if is_last then NEGATIVE_SEQ_LAST else POSITIVE_SEQ) ∧
      f[2]?.getD 9 % 16 = GZIP ∧
      unpack_i32 ((f.drop 4).take 4) = (if is_last then -seq else seq) ∧
      gzip_decompress (f.drop 12) = some audio := by
  refine ⟨_, build_audio_compressed audio seq is_last hne hsz h1 h2, ?_, ?_, ?_, ?_⟩
  · rw [frame4_byte _ _ _ _ (build_header_length _ _ _ _) 1 (by omega)]
    cases is_last <;> decide
  · rw [frame4_byte _ _ _ _ (build_header_length _ _ _ _) 2 (by omega)]
    cases is_last <;> decide
  · rw [frame4_seq_field _ _ _ _ (build_header_length _ _ _ _) (u32be_length _)]
    exact unpack_i32_u32be_emod _ h1 h2
  · rw [frame4_payload _ _ _ _ (build_header_length _ _ _ _) (u32be_length _) (u32be_length _)]
    exact gzip_roundtrip audio

theorem audio_frame_fields_empty (seq : Int) (is_last : Bool)
    (h1 : -(2 ^ 31) ≤ (if is_last then -seq else seq))
    (h2 : (if is_last then -seq else seq) < 2 ^ 31) :
    ∃ f, build_audio_only_request [] seq is_last true = some f ∧
      f[2]?.getD 9 % 16 = NO_COMPRESSION ∧
      (f.drop 8).take 4 = u32be 0 ∧
      f.drop 12 = [] := by
  refine ⟨_, build_audio_uncompressed_empty seq is_last h1 h2, ?_, ?_, ?_⟩
  · rw [frame4_byte _ _ _ _ (build_header_length _ _ _ _) 2 (by omega)]
    cases is_last <;> decide
  · exact frame4_size_field _ _ _ _ (build_header_length _ _ _ _) (u32be_length _)
      (u32be_length _)
  · exact frame4_payload _ _ _ _ (build_header_length _ _ _ _) (u32be_length _)
      (u32be_length _)

theorem audio_frame_fields_uncompressed (audio : List Nat) (seq : Int) (is_last : Bool)
    (hsz : audio.length < 2 ^ 32)
    (h1 : -(2 ^ 31) ≤ (if is_last then -seq else seq))
    (h2 : (if is_last then -seq else seq) < 2 ^ 31) :
    ∃ f, build_audio_only_request audio seq is_last false = some f ∧
      f[1]?.getD 0 % 16 = (if is_last then NEGATIVE_SEQ_LAST else POSITIVE_SEQ) ∧
      f[2]?.getD 9 % 16 = NO_COMPRESSION ∧
      unpack_i32 ((f.drop 4).take 4) = (if is_last then -seq else seq) ∧
      f.drop 12 = audio := by
  refine ⟨_, build_audio_uncompressed audio seq is_last hsz h1 h2, ?_, ?_, ?_, ?_⟩
  · rw [frame4_byte _ _ _ _ (build_header_length _ _ _ _) 1 (by omega)]
    cases is_last <;> decide
  · rw [frame4_byte _ _ _ _ (build_header_length _ _ _ _) 2 (by omega)]
    cases is_last <;> decide
  · rw [frame4_seq_field _ _ _ _ (build_header_length _ _ _ _) (u32be_length _)]
    exact unpack_i32_u32be_emod _ h1 h2
  · exact frame4_payload _ _ _ _ (build_header_length _ _ _ _) (u32be_length _)
      (u32be_length _)

theorem audio_frame_fields_empty_seq (seq : Int) (is_last : Bool)
    (h1 : -(2 ^ 31) ≤ (if is_last then -seq else seq))
    (h2 : (if is_last then -seq else seq) < 2 ^ 31) :
    ∃ f, build_audio_only_request [] seq is_last true = some f ∧
      f[1]?.getD 0 % 16 = (if is_last then NEGATIVE_SEQ_LAST else POSITIVE_SEQ) ∧
      unpack_i32 ((f.drop 4).take 4) = (if is_last then -seq else seq) ∧
      f.drop 12 = [] := by
  refine ⟨_, build_audio_uncompressed_empty seq is_last h1 h2, ?_, ?_, ?_⟩
  · rw [frame4_byte _ _ _ _ (build_header_length _ _ _ _) 1 (by omega)]
    cases is_last <;> decide
  · rw [frame4_seq_field _ _ _ _ (build_header_length _ _ _ _) (u32be_length _)]
    exact unpack_i32_u32be_emod _ h1 h2
  · exact frame4_payload _ _ _ _ (build_header_length _ _ _ _) (u32be_length _)
      (u32be_length _)

end UtilsProto

/-- C6 (corrected): every frame built by build_audio_only_request carries
the flags nibble NEGATIVE_SEQ_LAST when is_last is set (POSITIVE_SEQ
otherwise) and the negated (resp. plain) sequence in the signed big-endian
sequence field, for every audio byte string and either compression
setting.  When compression is requested and the audio is non-empty,
gunzipping the payload recovers the original audio bytes; with compression
disabled the payload is the raw audio bytes for every audio, including the
empty one; with empty audio and compression requested the payload is the
raw empty byte string — only the gunzip-recovery conclusion of the
original claim fails there (the amendment forced by the empty-audio
counterexample). -/
theorem C6_last_audio_frame :
    (∀ (audio : List Nat) (seq : Int), 0 < seq → seq ≤ 2 ^ 31 → audio ≠ [] →
      audio.length + 2 < 2 ^ 32 →
      ∃ f, UtilsProto.build_audio_only_request audio seq true true = some f ∧
        f[1]?.getD 0 % 16 = UtilsProto.NEGATIVE_SEQ_LAST ∧
        unpack_i32 ((f.drop 4).take 4) = -seq ∧
        gzip_decompress (f.drop 12) = some audio) ∧
    (∀ (audio : List Nat) (seq : Int), 0 < seq → seq < 2 ^ 31 → audio ≠ [] →
      audio.length + 2 < 2 ^ 32 →
      ∃ f, UtilsProto.build_audio_only_request audio seq false true = some f ∧
        f[1]?.getD 0 % 16 = UtilsProto.POSITIVE_SEQ ∧
        unpack_i32 ((f.drop 4).take 4) = seq ∧
        gzip_decompress (f.drop 12) = some audio) ∧
    (∀ (audio : List Nat) (seq : Int) (is_last : Bool), 0 < seq → seq < 2 ^ 31 →
      audio.length < 2 ^ 32 →
      ∃ f, UtilsProto.build_audio_only_request audio seq is_last false = some f ∧
        f[1]?.getD 0 % 16 =
          (if is_last then UtilsProto.NEGATIVE_SEQ_LAST else UtilsProto.POSITIVE_SEQ) ∧
        f[2]?.getD 9 % 16 = UtilsProto.NO_COMPRESSION ∧
        unpack_i32 ((f.drop 4).take 4) = (if is_last then -seq else seq) ∧
        f.drop 12 = audio) ∧
    (∀ (seq : Int) (is_last : Bool), 0 < seq → seq < 2 ^ 31 →
      ∃ f, UtilsProto.build_audio_only_request [] seq is_last true = some f ∧
        f[1]?.getD 0 % 16 =
          (if is_last then UtilsProto.NEGATIVE_SEQ_LAST else UtilsProto.POSITIVE_SEQ) ∧
        unpack_i32 ((f.drop 4).take 4) = (if is_last then -seq else seq) ∧
        f.drop 12 = []) := by
  refine ⟨?_, ?_, ?_, ?_⟩
  · intro audio seq hpos hrange hne hsz
    obtain ⟨f, hb, hflag, _, hseq, hpay⟩ :=
      UtilsProto.audio_frame_fields audio seq true hne hsz (by simp; omega) (by simp; omega)
    exact ⟨f, hb, by simpa using hflag, by simpa using hseq, hpay⟩
  · intro audio seq hpos hlt hne hsz
    obtain ⟨f, hb, hflag, _, hseq, hpay⟩ :=
      UtilsProto.audio_frame_fields audio seq false hne hsz (by simp; omega) (by simp; omega)
    exact ⟨f, hb, by simpa using hflag, by simpa using hseq, hpay⟩
  · intro audio seq is_last hpos hlt hsz
    exact UtilsProto.audio_frame_fields_uncompressed audio seq is_last hsz
      (by cases is_last <;> simp <;> omega) (by cases is_last <;> simp <;> omega)
  · intro seq is_last hpos hlt
    exact UtilsProto.audio_frame_fields_empty_seq seq is_last
      (by cases is_last <;> simp <;> omega) (by cases is_last <;> simp <;> omega)

/-- Witness for C6_last_audio_frame: all four clauses instantiated at
audio = [1, 2, 3] (resp. the empty audio) and seq = 5. -/
theorem C6_last_audio_frame_witness :
    (∃ f, UtilsProto.build_audio_only_request [1, 2, 3] 5 true true = some f ∧
       f[1]?.getD 0 % 16 = UtilsProto.NEGATIVE_SEQ_LAST ∧
       unpack_i32 ((f.drop 4).take 4) = -5 ∧
       gzip_decompress (f.drop 12) = some [1, 2, 3]) ∧
    (∃ f, UtilsProto.build_audio_only_request [1, 2, 3] 5 false true = some f ∧
       f[1]?.getD 0 % 16 = UtilsProto.POSITIVE_SEQ ∧
       unpack_i32 ((f.drop 4).take 4) = 5 ∧
       gzip_decompress (f.drop 12) = some [1, 2, 3]) ∧
    (∃ f, UtilsProto.build_audio_only_request [1, 2, 3] 5 true false = some f ∧
       f[1]?.getD 0 % 16 = UtilsProto.NEGATIVE_SEQ_LAST ∧
       f[2]?.getD 9 % 16 = UtilsProto.NO_COMPRESSION ∧
       unpack_i32 ((f.drop 4).take 4) = -5 ∧
       f.drop 12 = [1, 2, 3]) ∧
    (∃ f, UtilsProto.build_audio_only_request [] 5 false true = some f ∧
       f[1]?.getD 0 % 16 = UtilsProto.POSITIVE_SEQ ∧
       unpack_i32 ((f.drop 4).take 4) = 5 ∧
       f.drop 12 = []) :=
  ⟨C6_last_audio_frame.1 [1, 2, 3] 5 (by decide) (by decide) (by decide) (by decide),
   C6_last_audio_frame.2.1 [1, 2, 3] 5 (by decide) (by decide) (by decide) (by decide),
   by simpa using C6_last_audio_frame.2.2.1 [1, 2, 3] 5 true (by decide) (by decide) (by decide),
   by simpa using C6_last_audio_frame.2.2.2 5 false (by decide) (by decide)⟩

/-- C6 counterexample: with empty audio and compression requested the
payload is left uncompressed, so gunzipping it does not recover the
original (empty) audio — the claim as stated fails at audio = [], seq = 1. -/
theorem C6_counterexample :
    ¬ ∀ f, UtilsProto.build_audio_only_request [] 1 true true = some f →
        gzip_decompress (f.drop 12) = some [] := by
  intro h
  have hb : UtilsProto.build_audio_only_request [] 1 true true =
      some [17, 35, 0, 0, 255, 255, 255, 255, 0, 0, 0, 0] := by decide
  have hx := h _ hb
  exact absurd hx (by decide)

/-- C10 (confirmed): with empty audio and compression requested, the
compression nibble is NO_COMPRESSION, the declared payload length is 0 and
the payload is empty (no gzip applied); with non-empty audio the GZIP
nibble is set and the payload is the compressed audio. -/
theorem C10_empty_audio_not_compressed (seq : Int)
    (h1 : -(2 ^ 31) < seq) (h2 : seq < 2 ^ 31) :
    (∀ is_last : Bool, ∃ f,
       UtilsProto.build_audio_only_request [] seq is_last true = some f ∧
       f[2]?.getD 9 % 16 = UtilsProto.NO_COMPRESSION ∧
       (f.drop 8).take 4 = u32be 0 ∧
       f.drop 12 = []) ∧
    (∀ audio : List Nat, audio ≠ [] → audio.length + 2 < 2 ^ 32 →
      ∀ is_last : Bool, ∃ f,
        UtilsProto.build_audio_only_request audio seq is_last true = some f ∧
        f[2]?.getD 9 % 16 = UtilsProto.GZIP ∧
        f.drop 12 = gzip_compress audio) := by
  constructor
  · intro is_last
    exact UtilsProto.audio_frame_fields_empty seq is_last
      (by cases is_last <;> simp <;> omega) (by cases is_last <;> simp <;> omega)
  · intro audio hne hsz is_last
    obtain ⟨f, hb, _, hcomp, _, hpay⟩ :=
      UtilsProto.audio_frame_fields audio seq is_last hne hsz
        (by cases is_last <;> simp <;> omega) (by cases is_last <;> simp <;> omega)
    exact ⟨f, hb, hcomp, gzip_decompress_some _ _ hpay⟩

namespace ContextMgr

theorem pop_round_length_le (rest : List Message) :
    (pop_round rest).length ≤ rest.length := by
  cases rest with
  | nil => simp [pop_round]
  | cons m r =>
    simp only [pop_round]
    split <;> simp

theorem trim_loop_post (cfg : ContextConfig) (hmin : 0 ≤ cfg.min_history_count) :
    ∀ fuel (messages : List Message), messages.length ≤ fuel →
      estimate_tokens cfg (trim_loop cfg fuel messages) ≤ cfg.max_tokens ∨
      ((trim_loop cfg fuel messages).length : Int) ≤ cfg.min_history_count * 2 := by
  intro fuel
  induction fuel with
  | zero =>
    intro messages hle
    have hnil : messages = [] := List.eq_nil_of_length_eq_zero (by omega)
    subst hnil
    right
    simp only [trim_loop, List.length_nil, Nat.cast_zero]
    omega
  | succ n ih =>
    intro messages hle
    simp only [trim_loop]
    split
    · cases messages with
      | nil =>
        right
        simp only [List.length_nil, Nat.cast_zero]
        omega
      | cons m rest =>
        have hlen : (pop_round rest).length ≤ n := by
          have := pop_round_length_le rest
          simp only [List.length_cons] at hle
          omega
        exact ih (pop_round rest) hlen
    · rename_i hcond
      rcases not_and_or.mp hcond with h | h
      · left
        omega
      · right
        omega

theorem trim_if_needed_post (cfg : ContextConfig) (hmin : 0 ≤ cfg.min_history_count)
    (messages : List Message) :
    estimate_tokens cfg (trim_if_needed cfg messages) ≤ cfg.max_tokens ∨
    ((trim_if_needed cfg messages).length : Int) ≤ cfg.min_history_count * 2 :=
  trim_loop_post cfg hmin messages.length messages le_rfl

end ContextMgr

/-- C2 (corrected): after any add_user_message or add_assistant_message
call the trim loop guarantees its exit condition: the estimated tokens are
at most max_tokens OR the history length is at most 2 * min_history_count
(the original claim had the length bound reversed and fails). -/
theorem C2_trim_invariant (cfg : ContextMgr.ContextConfig)
    (hmin : 1 ≤ cfg.min_history_count) (messages : List ContextMgr.Message)
    (content : List Char) :
    (ContextMgr.estimate_tokens cfg (ContextMgr.add_user_message cfg messages content) ≤
        cfg.max_tokens ∨
      ((ContextMgr.add_user_message cfg messages content).length : Int) ≤
        2 * cfg.min_history_count) ∧
    (ContextMgr.estimate_tokens cfg (ContextMgr.add_assistant_message cfg messages content) ≤
        cfg.max_tokens ∨
      ((ContextMgr.add_assistant_message cfg messages content).length : Int) ≤
        2 * cfg.min_history_count) := by
  have hmin0 : 0 ≤ cfg.min_history_count := by omega
  constructor
  · rcases ContextMgr.trim_if_needed_post cfg hmin0 (messages ++ [⟨"user", content⟩]) with h | h
    · exact Or.inl h
    · right
      rw [ContextMgr.add_user_message]
      omega
  · rcases ContextMgr.trim_if_needed_post cfg hmin0 (messages ++ [⟨"assistant", content⟩]) with h | h
    · exact Or.inl h
    · right
      rw [ContextMgr.add_assistant_message]
      omega

/-- Witness for C2_trim_invariant: default-like configuration, one message. -/
theorem C2_trim_invariant_witness :
    (ContextMgr.estimate_tokens ⟨50000, mkRat 3 2, 2⟩
        (ContextMgr.add_user_message ⟨50000, mkRat 3 2, 2⟩ [] "你好".toList) ≤ 50000 ∨
      ((ContextMgr.add_user_message ⟨50000, mkRat 3 2, 2⟩ [] "你好".toList).length : Int) ≤ 2 * 2) ∧
    (ContextMgr.estimate_tokens ⟨50000, mkRat 3 2, 2⟩
        (ContextMgr.add_assistant_message ⟨50000, mkRat 3 2, 2⟩ [] "你好".toList) ≤ 50000 ∨
      ((ContextMgr.add_assistant_message ⟨50000, mkRat 3 2, 2⟩ [] "你好".toList).length : Int) ≤ 2 * 2) :=
  C2_trim_invariant ⟨50000, mkRat 3 2, 2⟩ (by norm_num) [] "你好".toList

/-- C2 counterexample: with max_tokens = 1, chars_per_token = 1 and
min_history_count = 1, a single appended user message of three characters
leaves a history of length 1 < 2 * min_history_count whose estimate 3
exceeds max_tokens, refuting the claim as stated. -/
theorem C2_counterexample :
    ¬ ((2 * (1 : Int) ≤ ((ContextMgr.add_user_message ⟨1, mkRat 1 1, 1⟩ [] "abc".toList).length : Int)) ∨
       ContextMgr.estimate_tokens ⟨1, mkRat 1 1, 1⟩
         (ContextMgr.add_user_message ⟨1, mkRat 1 1, 1⟩ [] "abc".toList) ≤ 1) := by
  decide

/-- Witness for C10_empty_audio_not_compressed at seq = 7. -/
theorem C10_empty_audio_not_compressed_witness :
    (∀ is_last : Bool, ∃ f,
       UtilsProto.build_audio_only_request [] 7 is_last true = some f ∧
       f[2]?.getD 9 % 16 = UtilsProto.NO_COMPRESSION ∧
       (f.drop 8).take 4 = u32be 0 ∧
       f.drop 12 = []) ∧
    (∀ audio : List Nat, audio ≠ [] → audio.length + 2 < 2 ^ 32 →
      ∀ is_last : Bool, ∃ f,
        UtilsProto.build_audio_only_request audio 7 is_last true = some f ∧
        f[2]?.getD 9 % 16 = UtilsProto.GZIP ∧
        f.drop 12 = gzip_compress audio) :=
  C10_empty_audio_not_compressed 7 (by decide) (by decide)

namespace TextSplitter

theorem non_ws_dropWhile (s : List Char) :
    non_ws (s.dropWhile is_py_space) = non_ws s := by
  induction s with
  | nil => rfl
  | cons c t ih =>
    by_cases hc : is_py_space c
    · simpa [List.dropWhile, hc, non_ws, List.filter] using ih
    · simp [List.dropWhile, hc]

theorem non_ws_reverse (s : List Char) :
    non_ws s.reverse = (non_ws s).reverse := by
  simp [non_ws, List.filter_reverse]

theorem non_ws_rstrip (s : List Char) : non_ws (py_rstrip s) = non_ws s := by
  have h := non_ws_dropWhile s.reverse
  calc non_ws (py_rstrip s) = (non_ws (s.reverse.dropWhile is_py_space)).reverse := by
        rw [py_rstrip, non_ws_reverse]
    _ = (non_ws s.reverse).reverse := by rw [h]
    _ = non_ws s := by rw [non_ws_reverse, List.reverse_reverse]

theorem non_ws_strip (s : List Char) : non_ws (py_strip s) = non_ws s := by
  rw [py_strip, non_ws_rstrip, py_lstrip, non_ws_dropWhile]

theorem non_ws_append (a b : List Char) : non_ws (a ++ b) = non_ws a ++ non_ws b := by
  simp [non_ws, List.filter_append]

theorem non_ws_of_strip_nil (s : List Char) (h : py_strip s = []) : non_ws s = [] := by
  rw [← non_ws_strip, h]
  rfl

theorem try_extract_aux_shape (buffer : List Char) :
    ∀ (todo : List Char) (i : Nat) (lc : Int) (s rest : List Char),
      todo = buffer.drop i → lc < (i : Int) →
      try_extract_aux buffer todo i lc = some (s, rest) →
      ∃ k, k < buffer.length ∧ s = py_strip (buffer.take (k + 1)) ∧
        rest = buffer.drop (k + 1) := by
  intro todo
  induction todo with
  | nil =>
    intro i lc s rest _ _ h
    simp [try_extract_aux] at h
  | cons c t ih =>
    intro i lc s rest htodo hlc h
    have hi : i < buffer.length := by
      by_contra hge
      rw [List.drop_eq_nil_of_le (by omega)] at htodo
      exact List.cons_ne_nil c t htodo
    rw [try_extract_aux] at h
    set d : Int := if c ∈ COMMA_MARKS then (i : Int) else lc with hd
    have hdle : d ≤ (i : Int) := by
      rw [hd]
      split
      · exact le_rfl
      · omega
    by_cases hA : c ∈ SENTENCE_ENDINGS ∧
        (py_strip (buffer.take (i + 1))).length ≥ MIN_SENTENCE_LENGTH
    · rw [if_pos hA] at h
      injection h with h2
      injection h2 with hs hr
      exact ⟨i, hi, hs.symm, hr.symm⟩
    · rw [if_neg hA] at h
      by_cases hB : i ≥ MAX_SENTENCE_LENGTH ∧ d > 0 ∧
          (py_strip (buffer.take (d.toNat + 1))).length ≥ MIN_SENTENCE_LENGTH
      · rw [if_pos hB] at h
        injection h with h2
        injection h2 with hs hr
        exact ⟨d.toNat, by omega, hs.symm, hr.symm⟩
      · rw [if_neg hB] at h
        have htodo2 : t = buffer.drop (i + 1) := by
          have h1 := congrArg List.tail htodo
          simpa [List.tail_drop] using h1
        exact ih (i + 1) d s rest htodo2 (by omega) h

theorem try_extract_sentence_shape (buffer s rest : List Char)
    (h : try_extract_sentence buffer = some (s, rest)) :
    ∃ k, k < buffer.length ∧ s = py_strip (buffer.take (k + 1)) ∧
      rest = buffer.drop (k + 1) :=
  try_extract_aux_shape buffer buffer 0 (-1) s rest rfl (by norm_num) h

theorem try_extract_non_ws (buffer s rest : List Char)
    (h : try_extract_sentence buffer = some (s, rest)) :
    non_ws s ++ non_ws rest = non_ws buffer := by
  obtain ⟨k, _, hs, hr⟩ := try_extract_sentence_shape buffer s rest h
  rw [hs, hr, non_ws_strip, ← non_ws_append, List.take_append_drop]

theorem feed_loop_non_ws :
    ∀ (fuel : Nat) (buffer : List Char),
      non_ws ((feed_loop fuel buffer).1.flatten ++ (feed_loop fuel buffer).2) =
        non_ws buffer := by
  intro fuel
  induction fuel with
  | zero =>
    intro buffer
    simp [feed_loop]
  | succ n ih =>
    intro buffer
    cases h : try_extract_sentence buffer with
    | none => simp [feed_loop, h]
    | some p =>
      obtain ⟨s, rest⟩ := p
      have hx := try_extract_non_ws buffer s rest h
      have hstep : feed_loop (n + 1) buffer =
          (s :: (feed_loop n rest).1, (feed_loop n rest).2) := by
        rw [feed_loop, h]
      rw [hstep]
      calc non_ws ((s :: (feed_loop n rest).1).flatten ++ (feed_loop n rest).2)
          = non_ws (s ++ ((feed_loop n rest).1.flatten ++ (feed_loop n rest).2)) := by
            simp [List.append_assoc]
        _ = non_ws s ++ non_ws ((feed_loop n rest).1.flatten ++ (feed_loop n rest).2) :=
            non_ws_append _ _
        _ = non_ws s ++ non_ws rest := by rw [ih rest]
        _ = non_ws buffer := hx

end TextSplitter

/-- C3 (corrected): concatenating the sentences yielded by feed with the
flush result reconstitutes the input modulo removal of whitespace (each
extracted sentence and the flush result are stripped, so whitespace at
sentence boundaries is removed, not only trailing whitespace): the
non-whitespace characters agree exactly. -/
theorem C3_splitter_reconstitution (s : List Char) :
    TextSplitter.non_ws ((TextSplitter.feed [] s).1.flatten ++
      (TextSplitter.flush (TextSplitter.feed [] s).2).getD []) =
      TextSplitter.non_ws s := by
  have hloop := TextSplitter.feed_loop_non_ws ([] ++ s).length ([] ++ s)
  have hfl : TextSplitter.non_ws
      ((TextSplitter.flush (TextSplitter.feed [] s).2).getD []) =
      TextSplitter.non_ws (TextSplitter.feed [] s).2 := by
    rw [TextSplitter.flush]
    split
    · rename_i hnil
      rw [TextSplitter.non_ws_of_strip_nil _ hnil]
      rfl
    · simp [TextSplitter.non_ws_strip]
  rw [TextSplitter.non_ws_append, hfl, ← TextSplitter.non_ws_append]
  exact hloop

/-- C3 counterexample: for the input "ab. cd." the concatenation of the
yielded sentences with the flush result is "ab.cd.", which differs from
the input even modulo trailing-whitespace trimming (the inner space is
gone). -/
theorem C3_counterexample :
    ((TextSplitter.feed [] "ab. cd.".toList).1.flatten ++
        (TextSplitter.flush (TextSplitter.feed [] "ab. cd.".toList).2).getD []) ≠
      TextSplitter.py_rstrip "ab. cd.".toList ∧
    TextSplitter.py_rstrip ((TextSplitter.feed [] "ab. cd.".toList).1.flatten ++
        (TextSplitter.flush (TextSplitter.feed [] "ab. cd.".toList).2).getD []) ≠
      TextSplitter.py_rstrip "ab. cd.".toList := by
  decide

/-- C8 (confirmed): the parsed emotion always belongs to the allowed
four-element enum, and when the emotion tag is missing or its stripped
value is not in the enum the result is the default emotion. -/
theorem C8_emotion_codomain (raw : List Char) :
    (EmotionParser.parse raw).emotion ∈ EmotionParser.VALID_EMOTIONS ∧
    (EmotionParser.emotion_search raw = none →
      (EmotionParser.parse raw).emotion = EmotionParser.DEFAULT_EMOTION) ∧
    (∀ g, EmotionParser.emotion_search raw = some g →
      TextSplitter.py_strip g ∉ EmotionParser.VALID_EMOTIONS →
      (EmotionParser.parse raw).emotion = EmotionParser.DEFAULT_EMOTION) := by
  refine ⟨?_, ?_, ?_⟩
  · simp only [EmotionParser.parse, EmotionParser.extract_emotion]
    cases h : EmotionParser.emotion_search raw with
    | none => decide
    | some g =>
      by_cases hv : TextSplitter.py_strip g ∈ EmotionParser.VALID_EMOTIONS
      · simp [hv]
      · simp only [if_neg hv]
        decide
  · intro h
    simp [EmotionParser.parse, EmotionParser.extract_emotion, h]
  · intro g hg hv
    simp [EmotionParser.parse, EmotionParser.extract_emotion, hg, hv]

/-- Witness for C8_emotion_codomain: an unknown emotion value falls back
to the default emotion. -/
theorem C8_emotion_codomain_witness :
    (EmotionParser.parse "<content>哈哈</content><emotion>开心</emotion>".toList).emotion =
      EmotionParser.DEFAULT_EMOTION :=
  (C8_emotion_codomain "<content>哈哈</content><emotion>开心</emotion>".toList).2.2
    "开心".toList (by decide) (by decide)

theorem dec_nat_enc (n : Nat) (rest : List Nat) :
    dec_nat (enc_nat n ++ rest) = some (n, rest) := by
  induction n with
  | zero => simp [enc_nat, dec_nat]
  | succ k ih =>
    have he : enc_nat (k + 1) ++ rest = 1 :: (enc_nat k ++ rest) := by
      simp [enc_nat, List.replicate_succ]
    rw [he, dec_nat, ih]
    rfl

theorem take_exact_append (a rest : List Nat) :
    take_exact a.length (a ++ rest) = some (a, rest) := by
  rw [take_exact, if_pos (by simp)]
  rw [List.take_left, List.drop_left]

theorem json_loads_aux_dumps (j : Json) :
    ∀ fuel rest, (json_dumps j).length ≤ fuel →
      json_loads_aux fuel (json_dumps j ++ rest) = some (j, rest) := by
  induction j with
  | jstr s =>
    intro fuel rest hf
    obtain ⟨f2, rfl⟩ : ∃ f2, fuel = f2 + 1 := by
      have h1 : 1 ≤ (json_dumps (.jstr s)).length := by simp [json_dumps]
      exact ⟨fuel - 1, by omega⟩
    rw [show json_dumps (.jstr s) ++ rest = 2 :: (enc_nat s.length ++ (s ++ rest)) by
      simp [json_dumps, List.append_assoc]]
    simp [json_loads_aux, dec_nat_enc, take_exact_append]
  | jnum n =>
    intro fuel rest hf
    obtain ⟨f2, rfl⟩ : ∃ f2, fuel = f2 + 1 := by
      have h1 : 1 ≤ (json_dumps (.jnum n)).length := by simp [json_dumps]
      exact ⟨fuel - 1, by omega⟩
    rw [show json_dumps (.jnum n) ++ rest =
        3 :: ((if n < 0 then 1 else 0) :: (enc_nat n.natAbs ++ rest)) by
      simp [json_dumps, List.append_assoc]]
    simp only [json_loads_aux, dec_nat_enc]
    norm_num
    by_cases hn : n < 0
    · simp [hn, abs_of_neg hn]
    · simp [hn, abs_of_nonneg (not_lt.mp hn)]
  | jobj_nil =>
    intro fuel rest hf
    obtain ⟨f2, rfl⟩ : ∃ f2, fuel = f2 + 1 := by
      have h1 : 1 ≤ (json_dumps .jobj_nil).length := by simp [json_dumps]
      exact ⟨fuel - 1, by omega⟩
    rw [show json_dumps .jobj_nil ++ rest = 4 :: rest by simp [json_dumps]]
    simp [json_loads_aux]
  | jobj_cons k v r ihv ihr =>
    intro fuel rest hf
    obtain ⟨f2, rfl⟩ : ∃ f2, fuel = f2 + 1 := by
      have h1 : 1 ≤ (json_dumps (.jobj_cons k v r)).length := by simp [json_dumps]
      exact ⟨fuel - 1, by omega⟩
    have hlen : (json_dumps (.jobj_cons k v r)).length =
        1 + (k.length + 1) + k.length + (json_dumps v).length + (json_dumps r).length := by
      simp [json_dumps, enc_nat]
      omega
    have hdv : (json_dumps v).length ≤ f2 := by omega
    have hdr : (json_dumps r).length ≤ f2 := by omega
    rw [show json_dumps (.jobj_cons k v r) ++ rest =
        5 :: (enc_nat k.length ++ (k ++ (json_dumps v ++ (json_dumps r ++ rest)))) by
      simp [json_dumps, List.append_assoc]]
    simp [json_loads_aux, dec_nat_enc, take_exact_append, ihv f2 _ hdv, ihr f2 rest hdr]

theorem json_loads_dumps (j : Json) : json_loads (json_dumps j) = some j := by
  have h := json_loads_aux_dumps j ((json_dumps j).length + 1) [] (by omega)
  rw [List.append_nil] at h
  rw [json_loads, h]

theorem u32be_len (n : Nat) : (u32be n).length = 4 := rfl

theorem unpack_i32_u32be_small (n : Nat) (h : n < 2 ^ 31) :
    unpack_i32 (u32be n) = (n : Int) := by
  rw [unpack_i32, unpack_u_u32be n (by omega)]
  simp only [if_pos h]

namespace E2EProto

theorem build_event_frame_eq (e : Nat) (sid : List Nat) (p : Json) (mt sm : Nat)
    (he100 : 100 ≤ e) (he : e < 2 ^ 32) (hsl : sid.length < 2 ^ 32)
    (hpl : (gzip_compress (json_dumps p)).length < 2 ^ 32) :
    build_event_frame e sid p mt sm =
      some (generate_header PROTOCOL_VERSION mt MSG_WITH_EVENT sm GZIP_COMPRESSION 0 ++
            u32be e ++ (u32be sid.length ++ sid) ++
            u32be (gzip_compress (json_dumps p)).length ++
            gzip_compress (json_dumps p)) := by
  simp [build_event_frame, pack_u32_eq _ he, pack_u32_eq _ hsl, pack_u32_eq _ hpl, he100]

theorem build_audio_frame_eq (e : Nat) (sid : List Nat) (audio : List Nat)
    (he : e < 2 ^ 32) (hsl : sid.length < 2 ^ 32)
    (hpl : (gzip_compress audio).length < 2 ^ 32) :
    build_audio_frame e sid audio =
      some (generate_header PROTOCOL_VERSION CLIENT_AUDIO_ONLY_REQUEST MSG_WITH_EVENT
              NO_SERIALIZATION GZIP_COMPRESSION 0 ++
            u32be e ++ (u32be sid.length ++ sid) ++
            u32be (gzip_compress audio).length ++ gzip_compress audio) := by
  simp [build_audio_frame, pack_u32_eq _ he, pack_u32_eq _ hsl, pack_u32_eq _ hpl]

theorem parse_response_non_server (b0 b1 b2 b3 : Nat) (rest : List Nat)
    (h9 : b1 >>> 4 ≠ SERVER_FULL_RESPONSE) (h11 : b1 >>> 4 ≠ SERVER_ACK)
    (h15 : b1 >>> 4 ≠ SERVER_ERROR_RESPONSE) :
    parse_response (.bytes (b0 :: b1 :: b2 :: b3 :: rest)) = ParseResult.empty := by
  simp only [parse_response]
  rw [if_neg (by tauto), if_neg h15]

end E2EProto

theorem parse_server_eval (mt e m : Nat) (sid pb : List Nat)
    (hm : m < 2 ^ 32) (hs0 : 0 < sid.length) (hs31 : sid.length < 2 ^ 31) :
    E2EProto.parse_server mt 4 1 1
        (u32be e ++ (u32be sid.length ++ (sid ++ (u32be m ++ pb)))) =
      { message_type := some (if mt = E2EProto.SERVER_FULL_RESPONSE then
          "SERVER_FULL_RESPONSE" else "SERVER_ACK"),
        seq := none, event := some (unpack_u (u32be e)), session_id := some sid,
        payload_size := some m, code := none,
        payload_msg := some (E2EProto.finalize_payload 1 1 (some pb)) } := by
  have hseqflag : ¬ ((4 : Nat) &&& E2EProto.NEG_SEQUENCE > 0) := by decide
  have hevflag : (4 : Nat) &&& E2EProto.MSG_WITH_EVENT > 0 := by decide
  have hXdrop : (u32be e ++ (u32be sid.length ++ (sid ++ (u32be m ++ pb)))).drop 4 =
      u32be sid.length ++ (sid ++ (u32be m ++ pb)) := drop4_of_append _ _ rfl
  have hXtake : (u32be e ++ (u32be sid.length ++ (sid ++ (u32be m ++ pb)))).take 4 =
      u32be e := take4_of_append _ _ rfl
  have hP1take : (u32be sid.length ++ (sid ++ (u32be m ++ pb))).take 4 =
      u32be sid.length := take4_of_append _ _ rfl
  have hP1drop4 : (u32be sid.length ++ (sid ++ (u32be m ++ pb))).drop 4 =
      sid ++ (u32be m ++ pb) := drop4_of_append _ _ rfl
  have hP1dropn : (u32be sid.length ++ (sid ++ (u32be m ++ pb))).drop (4 + sid.length) =
      u32be m ++ pb := by
    rw [show u32be sid.length ++ (sid ++ (u32be m ++ pb)) =
        (u32be sid.length ++ sid) ++ (u32be m ++ pb) from by simp [List.append_assoc]]
    rw [show (4 : Nat) + sid.length = (u32be sid.length ++ sid).length from by
      simp [u32be_len]]
    exact List.drop_left _ _
  have hYtake : (u32be m ++ pb).take 4 = u32be m := take4_of_append _ _ rfl
  have hYdrop : (u32be m ++ pb).drop 4 = pb := drop4_of_append _ _ rfl
  simp only [E2EProto.parse_server, hseqflag, hevflag, if_true, if_false,
    eq_self_iff_true, Nat.zero_add, hXtake, hXdrop]
  rw [hP1take, unpack_i32_u32be_small _ hs31]
  rw [if_pos (show (4 : Nat) ≤ (u32be sid.length ++ (sid ++ (u32be m ++ pb))).length from by
    simp [u32be])]
  rw [if_pos (show 0 < (sid.length : Int) ∧
      4 + (sid.length : Int) ≤ ((u32be sid.length ++ (sid ++ (u32be m ++ pb))).length : Int)
      from by simp [u32be]; omega)]
  simp only [Int.toNat_natCast, hP1drop4, List.take_left, hP1dropn]
  simp only [hYtake, hYdrop, unpack_u_u32be _ hm]
  rw [if_pos (show (4 : Nat) ≤ (u32be m ++ pb).length from by simp [u32be])]

theorem finalize_gzip_json (p : Json) :
    E2EProto.finalize_payload 1 1 (some (gzip_compress (json_dumps p))) =
      E2EProto.PyVal.pyJson p := by
  have h1 : (0 : Nat) < (gzip_compress (json_dumps p)).length := by simp [gzip_compress]
  simp only [E2EProto.finalize_payload]
  rw [if_pos h1]
  simp only [E2EProto.decode_payload]
  rw [if_pos (show (1 : Nat) = E2EProto.GZIP_COMPRESSION by rfl)]
  rw [gzip_roundtrip]
  show E2EProto.decode_stage2 1 (json_dumps p) = E2EProto.PyVal.pyJson p
  simp only [E2EProto.decode_stage2]
  rw [if_pos (show (1 : Nat) = E2EProto.JSON_SERIALIZATION by rfl), json_loads_dumps]

/-- C1 (corrected): parse_response only parses server-typed frames.  For
frames produced by build_event_frame with a server message type
(SERVER_FULL_RESPONSE or SERVER_ACK), a session-level event id and a
non-empty session id, parsing reproduces the event id, the session id and
(after gzip decompression and JSON deserialization) the payload.  Frames
built with the client message types — every frame the C1 build operations
produce with their default arguments, including every build_audio_frame
frame — parse to the empty dict, so the round-trip claimed for them
fails. -/
theorem C1_frame_roundtrip :
    (∀ (event_id : Nat) (session_id : List Nat) (payload : Json) (mt : Nat),
      mt = E2EProto.SERVER_FULL_RESPONSE ∨ mt = E2EProto.SERVER_ACK →
      100 ≤ event_id → event_id < 2 ^ 32 →
      0 < session_id.length → session_id.length < 2 ^ 31 →
      (json_dumps payload).length + 2 < 2 ^ 32 →
      ∃ f, E2EProto.build_event_frame event_id session_id payload mt
          E2EProto.JSON_SERIALIZATION = some f ∧
        (E2EProto.parse_response (.bytes f)).event = some event_id ∧
        (E2EProto.parse_response (.bytes f)).session_id = some session_id ∧
        (E2EProto.parse_response (.bytes f)).payload_msg =
          some (E2EProto.PyVal.pyJson payload)) ∧
    (∀ (event_id : Nat) (session_id audio : List Nat),
      event_id < 2 ^ 32 → session_id.length < 2 ^ 32 → audio.length + 2 < 2 ^ 32 →
      ∃ f, E2EProto.build_audio_frame event_id session_id audio = some f ∧
        E2EProto.parse_response (.bytes f) = E2EProto.ParseResult.empty) ∧
    (∀ (event_id : Nat) (session_id : List Nat) (payload : Json),
      100 ≤ event_id → event_id < 2 ^ 32 → session_id.length < 2 ^ 32 →
      (json_dumps payload).length + 2 < 2 ^ 32 →
      ∃ f, E2EProto.build_event_frame event_id session_id payload
          E2EProto.CLIENT_FULL_REQUEST E2EProto.JSON_SERIALIZATION = some f ∧
        E2EProto.parse_response (.bytes f) = E2EProto.ParseResult.empty) := by
  have hgl : ∀ d : List Nat, (gzip_compress d).length = d.length + 2 := by
    intro d
    simp [gzip_compress]
  refine ⟨?_, ?_, ?_⟩
  · intro e sid p mt hmt h100 he hs0 hs31 hpl
    have hgl32 : (gzip_compress (json_dumps p)).length < 2 ^ 32 := by
      rw [hgl]
      omega
    have hb := E2EProto.build_event_frame_eq e sid p mt E2EProto.JSON_SERIALIZATION
      h100 he (by omega) hgl32
    refine ⟨_, hb, ?_⟩
    rcases hmt with rfl | rfl
    · rw [show E2EProto.generate_header E2EProto.PROTOCOL_VERSION
          E2EProto.SERVER_FULL_RESPONSE E2EProto.MSG_WITH_EVENT
          E2EProto.JSON_SERIALIZATION E2EProto.GZIP_COMPRESSION 0 ++
          u32be e ++ (u32be sid.length ++ sid) ++
          u32be (gzip_compress (json_dumps p)).length ++ gzip_compress (json_dumps p) =
          17 :: 148 :: 17 :: 0 :: (u32be e ++ (u32be sid.length ++ (sid ++
            (u32be (gzip_compress (json_dumps p)).length ++ gzip_compress (json_dumps p)))))
          from by
        rw [show E2EProto.generate_header E2EProto.PROTOCOL_VERSION
            E2EProto.SERVER_FULL_RESPONSE E2EProto.MSG_WITH_EVENT
            E2EProto.JSON_SERIALIZATION E2EProto.GZIP_COMPRESSION 0 =
            [17, 148, 17, 0] from rfl]
        simp [List.append_assoc]]
      rw [show E2EProto.parse_response (.bytes (17 :: 148 :: 17 :: 0 ::
          (u32be e ++ (u32be sid.length ++ (sid ++
            (u32be (gzip_compress (json_dumps p)).length ++ gzip_compress (json_dumps p))))))) =
          E2EProto.parse_server 9 4 1 1 (u32be e ++ (u32be sid.length ++ (sid ++
            (u32be (gzip_compress (json_dumps p)).length ++ gzip_compress (json_dumps p)))))
          from rfl]
      rw [parse_server_eval 9 e _ sid _ hgl32 hs0 hs31]
      exact ⟨by rw [unpack_u_u32be _ he], rfl, by rw [finalize_gzip_json]⟩
    · rw [show E2EProto.generate_header E2EProto.PROTOCOL_VERSION
          E2EProto.SERVER_ACK E2EProto.MSG_WITH_EVENT
          E2EProto.JSON_SERIALIZATION E2EProto.GZIP_COMPRESSION 0 ++
          u32be e ++ (u32be sid.length ++ sid) ++
          u32be (gzip_compress (json_dumps p)).length ++ gzip_compress (json_dumps p) =
          17 :: 180 :: 17 :: 0 :: (u32be e ++ (u32be sid.length ++ (sid ++
            (u32be (gzip_compress (json_dumps p)).length ++ gzip_compress (json_dumps p)))))
          from by
        rw [show E2EProto.generate_header E2EProto.PROTOCOL_VERSION
            E2EProto.SERVER_ACK E2EProto.MSG_WITH_EVENT
            E2EProto.JSON_SERIALIZATION E2EProto.GZIP_COMPRESSION 0 =
            [17, 180, 17, 0] from rfl]
        simp [List.append_assoc]]
      rw [show E2EProto.parse_response (.bytes (17 :: 180 :: 17 :: 0 ::
          (u32be e ++ (u32be sid.length ++ (sid ++
            (u32be (gzip_compress (json_dumps p)).length ++ gzip_compress (json_dumps p))))))) =
          E2EProto.parse_server 11 4 1 1 (u32be e ++ (u32be sid.length ++ (sid ++
            (u32be (gzip_compress (json_dumps p)).length ++ gzip_compress (json_dumps p)))))
          from rfl]
      rw [parse_server_eval 11 e _ sid _ hgl32 hs0 hs31]
      exact ⟨by rw [unpack_u_u32be _ he], rfl, by rw [finalize_gzip_json]⟩
  · intro e sid audio he hsl hal
    have hb := E2EProto.build_audio_frame_eq e sid audio he hsl (by rw [hgl]; omega)
    refine ⟨_, hb, ?_⟩
    rw [show E2EProto.generate_header E2EProto.PROTOCOL_VERSION
        E2EProto.CLIENT_AUDIO_ONLY_REQUEST E2EProto.MSG_WITH_EVENT
        E2EProto.NO_SERIALIZATION E2EProto.GZIP_COMPRESSION 0 ++
        u32be e ++ (u32be sid.length ++ sid) ++
        u32be (gzip_compress audio).length ++ gzip_compress audio =
        17 :: 36 :: 1 :: 0 :: (u32be e ++ (u32be sid.length ++ sid) ++
          u32be (gzip_compress audio).length ++ gzip_compress audio) from by
      rw [show E2EProto.generate_header E2EProto.PROTOCOL_VERSION
          E2EProto.CLIENT_AUDIO_ONLY_REQUEST E2EProto.MSG_WITH_EVENT
          E2EProto.NO_SERIALIZATION E2EProto.GZIP_COMPRESSION 0 =
          [17, 36, 1, 0] from rfl]
      simp [List.append_assoc]]
    exact E2EProto.parse_response_non_server 17 36 1 0 _ (by decide) (by decide) (by decide)
  · intro e sid p h100 he hsl hpl
    have hb := E2EProto.build_event_frame_eq e sid p E2EProto.CLIENT_FULL_REQUEST
      E2EProto.JSON_SERIALIZATION h100 he hsl (by rw [hgl]; omega)
    refine ⟨_, hb, ?_⟩
    rw [show E2EProto.generate_header E2EProto.PROTOCOL_VERSION
        E2EProto.CLIENT_FULL_REQUEST E2EProto.MSG_WITH_EVENT
        E2EProto.JSON_SERIALIZATION E2EProto.GZIP_COMPRESSION 0 ++
        u32be e ++ (u32be sid.length ++ sid) ++
        u32be (gzip_compress (json_dumps p)).length ++ gzip_compress (json_dumps p) =
        17 :: 20 :: 17 :: 0 :: (u32be e ++ (u32be sid.length ++ sid) ++
          u32be (gzip_compress (json_dumps p)).length ++ gzip_compress (json_dumps p))
        from by
      rw [show E2EProto.generate_header E2EProto.PROTOCOL_VERSION
          E2EProto.CLIENT_FULL_REQUEST E2EProto.MSG_WITH_EVENT
          E2EProto.JSON_SERIALIZATION E2EProto.GZIP_COMPRESSION 0 =
          [17, 20, 17, 0] from rfl]
      simp [List.append_assoc]]
    exact E2EProto.parse_response_non_server 17 20 17 0 _ (by decide) (by decide) (by decide)

/-- Witness for C1_frame_roundtrip: a SessionStarted-style frame with a
one-byte session id and an empty JSON object payload. -/
theorem C1_frame_roundtrip_witness :
    ∃ f, E2EProto.build_event_frame 150 [65] Json.jobj_nil
        E2EProto.SERVER_FULL_RESPONSE E2EProto.JSON_SERIALIZATION = some f ∧
      (E2EProto.parse_response (.bytes f)).event = some 150 ∧
      (E2EProto.parse_response (.bytes f)).session_id = some [65] ∧
      (E2EProto.parse_response (.bytes f)).payload_msg =
        some (E2EProto.PyVal.pyJson Json.jobj_nil) :=
  C1_frame_roundtrip.1 150 [65] Json.jobj_nil E2EProto.SERVER_FULL_RESPONSE
    (Or.inl rfl) (by decide) (by decide) (by decide) (by decide) (by decide)

/-- C1 counterexample: a frame built by build_event_frame with its default
client message type parses to the empty dict, so the parsed event id is
not the one that was built in — the round-trip fails for the frames the
C1 build operations actually produce. -/
theorem C1_counterexample :
    ¬ ∀ f, E2EProto.build_event_frame 100 [65] Json.jobj_nil
          E2EProto.CLIENT_FULL_REQUEST E2EProto.JSON_SERIALIZATION = some f →
        (E2EProto.parse_response (.bytes f)).event = some 100 := by
  intro h
  have hb : E2EProto.build_event_frame 100 [65] Json.jobj_nil
      E2EProto.CLIENT_FULL_REQUEST E2EProto.JSON_SERIALIZATION =
      some [17, 20, 17, 0, 0, 0, 0, 100, 0, 0, 0, 1, 65, 0, 0, 0, 3, 31, 139, 4] := by
    decide
  exact absurd (h _ hb) (by decide)

/-- C9 (confirmed): parse_response is total — modelled as a total
function, mirroring that the Python code guards every slice and catches
every payload exception.  A str input and an input shorter than four
bytes give the empty dict; a payload whose gzip decompression fails is
kept as its raw bytes, and a payload whose JSON decoding fails is kept as
the (decompressed) bytes; a concrete malformed frame shows the raw bytes
surfacing in payload_msg. -/
theorem C9_parse_response_total :
    (∀ s : List Char, E2EProto.parse_response (.str s) = E2EProto.ParseResult.empty) ∧
    (∀ b : List Nat, b.length < 4 →
      E2EProto.parse_response (.bytes b) = E2EProto.ParseResult.empty) ∧
    (∀ ser pm, gzip_decompress pm = none →
      E2EProto.decode_payload ser E2EProto.GZIP_COMPRESSION pm =
        E2EProto.PyVal.pyBytes pm) ∧
    (∀ d, json_loads d = none →
      E2EProto.decode_stage2 E2EProto.JSON_SERIALIZATION d =
        E2EProto.PyVal.pyBytes d) ∧
    (E2EProto.parse_response
        (.bytes [17, 148, 17, 0, 0, 0, 0, 200, 0, 0, 0, 3, 9, 9, 9, 0, 0, 0, 1, 42])).payload_msg =
      some (E2EProto.PyVal.pyBytes [42]) := by
  refine ⟨?_, ?_, ?_, ?_, ?_⟩
  · intro s
    rfl
  · intro b hb
    rcases b with _ | ⟨a, _ | ⟨c, _ | ⟨d, _ | ⟨e, r⟩⟩⟩⟩
    · rfl
    · rfl
    · rfl
    · rfl
    · simp at hb
      omega
  · intro ser pm h
    simp only [E2EProto.decode_payload]
    rw [if_pos trivial, h]
  · intro d h
    simp only [E2EProto.decode_stage2]
    rw [if_pos trivial, h]
  · decide

/-- Witness for C9_parse_response_total: a three-byte input parses to the
empty dict. -/
theorem C9_parse_response_total_witness :
    E2EProto.parse_response (.bytes [1, 2, 3]) = E2EProto.ParseResult.empty :=
  C9_parse_response_total.2.1 [1, 2, 3] (by decide)

/-- C7 (confirmed): send_audio drops the audio and leaves the state
unchanged when there is no socket, no connection or no started session;
when connected with a started session it sends exactly one TASK_REQUEST
(event 200) audio frame carrying the given bytes and still leaves the
state unchanged. -/
theorem C7_send_audio_precondition (st : E2EClient.ClientState) (audio : List Nat) :
    ((¬st.has_ws ∨ ¬st.connected) ∨ ¬st.session_started →
      E2EClient.send_audio st audio = some (st, [])) ∧
    (st.has_ws → st.connected → st.session_started →
      st.session_id.length < 2 ^ 32 → audio.length + 2 < 2 ^ 32 →
      ∃ f, E2EProto.build_audio_frame E2EProto.EVENT_TASK_REQUEST st.session_id audio =
          some f ∧
        E2EClient.send_audio st audio = some (st, [f])) := by
  constructor
  · intro h
    rcases h with h | h
    · simp only [E2EClient.send_audio]
      rw [if_pos h]
    · by_cases hw : ¬st.has_ws ∨ ¬st.connected
      · simp only [E2EClient.send_audio]
        rw [if_pos hw]
      · simp only [E2EClient.send_audio]
        rw [if_neg hw, if_pos h]
  · intro h1 h2 h3 h4 h5
    have hgl : (gzip_compress audio).length < 2 ^ 32 := by
      simp [gzip_compress]
      omega
    have hb := E2EProto.build_audio_frame_eq E2EProto.EVENT_TASK_REQUEST st.session_id audio
      (by norm_num [E2EProto.EVENT_TASK_REQUEST]) h4 hgl
    refine ⟨_, hb, ?_⟩
    simp only [E2EClient.send_audio]
    rw [if_neg (by simp [h1, h2]), if_neg (by simp [h3]), hb]

/-- Witness for C7_send_audio_precondition: a not-started session drops
the audio; a started session sends exactly the built frame. -/
theorem C7_send_audio_witness :
    E2EClient.send_audio ⟨true, true, false, [65]⟩ [1, 2] =
      some (⟨true, true, false, [65]⟩, []) ∧
    ∃ f, E2EProto.build_audio_frame E2EProto.EVENT_TASK_REQUEST [65] [1, 2] = some f ∧
      E2EClient.send_audio ⟨true, true, true, [65]⟩ [1, 2] =
        some (⟨true, true, true, [65]⟩, [f]) :=
  ⟨(C7_send_audio_precondition ⟨true, true, false, [65]⟩ [1, 2]).1 (Or.inr (by decide)),
   (C7_send_audio_precondition ⟨true, true, true, [65]⟩ [1, 2]).2 (by decide) (by decide)
     (by decide) (by decide) (by decide)⟩

namespace Gateway

theorem fwd_run_append (xs : List NEvent) :
    ∀ (st : FwdState) (ys : List NEvent), (fwd_run st xs).2.2 = true →
      fwd_run st (xs ++ ys) =
        ((fwd_run st xs).1 ++ (fwd_run (fwd_run st xs).2.1 ys).1,
         (fwd_run (fwd_run st xs).2.1 ys).2) := by
  induction xs with
  | nil =>
    intro st ys _
    simp [fwd_run]
  | cons e rest ih =>
    intro st ys h
    by_cases hc : (fwd_step st e).2.2 = true
    · have h2 : (fwd_run (fwd_step st e).1 rest).2.2 = true := by
        simpa [fwd_run, hc] using h
      simp [fwd_run, hc, ih (fwd_step st e).1 ys h2, List.append_assoc]
    · exfalso
      simp [fwd_run, hc] at h

theorem range_map_shift (k s : Nat) :
    s :: (List.range k).map (· + (s + 1)) = (List.range (k + 1)).map (· + s) := by
  rw [List.range_succ_eq_map]
  simp only [List.map_cons, List.map_map, Nat.zero_add]
  congr 1
  refine List.map_congr_left (fun x _ => ?_)
  simp only [Function.comp]
  omega

theorem chunk_seqs_cons_chunk (a : List Char) (s : Nat) (rest : List OutMsg) :
    chunk_seqs (.tts_chunk a s :: rest) = s :: chunk_seqs rest := rfl

theorem audible_chunks_cons_ne (a : List Char) (ha : a ≠ []) (rest : List NEvent) :
    audible_chunks (.tts_chunk a :: rest) = audible_chunks rest + 1 := by
  have ha2 : (!a.isEmpty) = true := by
    simp [List.isEmpty_iff, ha]
  simp [audible_chunks, List.filter_cons, ha2]

theorem fwd_run_segment :
    ∀ (events : List NEvent), turn_segment events → ∀ st : FwdState,
      chunk_seqs (fwd_run st events).1 =
        (List.range (audible_chunks events)).map (· + st.tts_seq) ∧
      (fwd_run st events).2.2 = true := by
  intro events
  induction events with
  | nil =>
    intro _ st
    simp [fwd_run, chunk_seqs, audible_chunks]
  | cons e rest ih =>
    intro h st
    have he : is_reset_or_fatal e = false := h e (List.mem_cons_self e rest)
    have hrest : turn_segment rest := fun x hx => h x (List.mem_cons_of_mem e hx)
    cases e with
    | asr_started => simp [is_reset_or_fatal] at he
    | tts_ended => simp [is_reset_or_fatal] at he
    | asr_result t f =>
      obtain ⟨i1, i2⟩ := ih hrest st
      exact ⟨by simpa [fwd_run, fwd_step, chunk_seqs, audible_chunks] using i1,
        by simpa [fwd_run, fwd_step] using i2⟩
    | asr_ended =>
      obtain ⟨i1, i2⟩ := ih hrest st
      exact ⟨by simpa [fwd_run, fwd_step, chunk_seqs, audible_chunks] using i1,
        by simpa [fwd_run, fwd_step] using i2⟩
    | chat_text t =>
      obtain ⟨i1, i2⟩ := ih hrest ⟨st.tts_seq, st.full_chat_text ++ t⟩
      exact ⟨by simpa [fwd_run, fwd_step, chunk_seqs, audible_chunks] using i1,
        by simpa [fwd_run, fwd_step] using i2⟩
    | chat_ended =>
      obtain ⟨i1, i2⟩ := ih hrest st
      exact ⟨by simpa [fwd_run, fwd_step, chunk_seqs, audible_chunks] using i1,
        by simpa [fwd_run, fwd_step] using i2⟩
    | tts_start ty =>
      obtain ⟨i1, i2⟩ := ih hrest st
      exact ⟨by simpa [fwd_run, fwd_step, chunk_seqs, audible_chunks] using i1,
        by simpa [fwd_run, fwd_step] using i2⟩
    | other =>
      obtain ⟨i1, i2⟩ := ih hrest st
      exact ⟨by simpa [fwd_run, fwd_step, chunk_seqs, audible_chunks] using i1,
        by simpa [fwd_run, fwd_step] using i2⟩
    | error m fatal =>
      have hf : fatal = false := by simpa [is_reset_or_fatal] using he
      subst hf
      obtain ⟨i1, i2⟩ := ih hrest st
      exact ⟨by simpa [fwd_run, fwd_step, chunk_seqs, audible_chunks] using i1,
        by simpa [fwd_run, fwd_step] using i2⟩
    | tts_chunk a =>
      by_cases ha : a = []
      · subst ha
        obtain ⟨i1, i2⟩ := ih hrest st
        exact ⟨by simpa [fwd_run, fwd_step, chunk_seqs, audible_chunks] using i1,
          by simpa [fwd_run, fwd_step] using i2⟩
      · obtain ⟨i1, i2⟩ := ih hrest ⟨st.tts_seq + 1, st.full_chat_text⟩
        have i1n : chunk_seqs (fwd_run ⟨st.tts_seq + 1, st.full_chat_text⟩ rest).1 =
            (List.range (audible_chunks rest)).map (· + (st.tts_seq + 1)) := by
          simpa using i1
        have hstep : fwd_run st (NEvent.tts_chunk a :: rest) =
            (OutMsg.tts_chunk a st.tts_seq ::
              (fwd_run ⟨st.tts_seq + 1, st.full_chat_text⟩ rest).1,
             (fwd_run ⟨st.tts_seq + 1, st.full_chat_text⟩ rest).2) := by
          simp [fwd_run, fwd_step, ha]
        constructor
        · rw [hstep, audible_chunks_cons_ne a ha rest]
          simp only [chunk_seqs_cons_chunk, i1n]
          exact range_map_shift (audible_chunks rest) st.tts_seq
        · rw [hstep]
          exact i2

end Gateway

namespace Gateway

theorem chunk_seqs_append (xs ys : List OutMsg) :
    chunk_seqs (xs ++ ys) = chunk_seqs xs ++ chunk_seqs ys := by
  simp [chunk_seqs, List.filterMap_append]

theorem fwd_run_after_reset (pre : List NEvent) (st : FwdState) (e : NEvent)
    (halive : (fwd_run st pre).2.2 = true)
    (he : e = .asr_started ∨ e = .tts_ended) :
    (fwd_run st (pre ++ [e])).2.1.tts_seq = 0 ∧
    (fwd_run st (pre ++ [e])).2.2 = true := by
  rw [fwd_run_append pre st [e] halive]
  rcases he with rfl | rfl <;> simp [fwd_run, fwd_step]

end Gateway

/-- C5 (confirmed): within any turn the seq fields of the emitted
tts_chunk envelopes are exactly 0, 1, 2, ... — strictly increasing from
0 — and the counter resets on asr_started and after tts_ended: after any
alive event history followed by one of these reset events, the chunks of
the following turn segment again carry 0, 1, 2, ....  A turn segment is
any event run free of asr_started, tts_ended and fatal errors. -/
theorem C5_tts_chunk_sequencing :
    (∀ (events : List Gateway.NEvent) (ft : List Char),
      Gateway.turn_segment events →
      Gateway.chunk_seqs (Gateway.fwd_run ⟨0, ft⟩ events).1 =
        List.range (Gateway.audible_chunks events)) ∧
    (∀ (pre events : List Gateway.NEvent) (st : Gateway.FwdState),
      (Gateway.fwd_run st pre).2.2 = true → Gateway.turn_segment events →
      Gateway.chunk_seqs
          (Gateway.fwd_run st (pre ++ Gateway.NEvent.asr_started :: events)).1 =
        Gateway.chunk_seqs (Gateway.fwd_run st (pre ++ [Gateway.NEvent.asr_started])).1 ++
          List.range (Gateway.audible_chunks events)) ∧
    (∀ (pre events : List Gateway.NEvent) (st : Gateway.FwdState),
      (Gateway.fwd_run st pre).2.2 = true → Gateway.turn_segment events →
      Gateway.chunk_seqs
          (Gateway.fwd_run st (pre ++ Gateway.NEvent.tts_ended :: events)).1 =
        Gateway.chunk_seqs (Gateway.fwd_run st (pre ++ [Gateway.NEvent.tts_ended])).1 ++
          List.range (Gateway.audible_chunks events)) := by
  refine ⟨?_, ?_, ?_⟩
  · intro events ft hseg
    obtain ⟨s1, _⟩ := Gateway.fwd_run_segment events hseg ⟨0, ft⟩
    simpa using s1
  · intro pre events st halive hseg
    have hx := Gateway.fwd_run_after_reset pre st .asr_started halive (Or.inl rfl)
    have hrw : pre ++ Gateway.NEvent.asr_started :: events =
        (pre ++ [Gateway.NEvent.asr_started]) ++ events := by
      simp
    rw [hrw, Gateway.fwd_run_append (pre ++ [Gateway.NEvent.asr_started]) st events hx.2]
    obtain ⟨s1, _⟩ := Gateway.fwd_run_segment events hseg
      (Gateway.fwd_run st (pre ++ [Gateway.NEvent.asr_started])).2.1
    simp only [Gateway.chunk_seqs_append, s1, hx.1]
    simp
  · intro pre events st halive hseg
    have hx := Gateway.fwd_run_after_reset pre st .tts_ended halive (Or.inr rfl)
    have hrw : pre ++ Gateway.NEvent.tts_ended :: events =
        (pre ++ [Gateway.NEvent.tts_ended]) ++ events := by
      simp
    rw [hrw, Gateway.fwd_run_append (pre ++ [Gateway.NEvent.tts_ended]) st events hx.2]
    obtain ⟨s1, _⟩ := Gateway.fwd_run_segment events hseg
      (Gateway.fwd_run st (pre ++ [Gateway.NEvent.tts_ended])).2.1
    simp only [Gateway.chunk_seqs_append, s1, hx.1]
    simp

/-- Witness for C5_tts_chunk_sequencing: a turn of three audible chunks
numbered 0, 1, 2, then an asr_started reset followed by two chunks
numbered 0, 1 again. -/
theorem C5_tts_chunk_sequencing_witness :
    Gateway.chunk_seqs (Gateway.fwd_run ⟨0, []⟩
        [Gateway.NEvent.tts_chunk "a".toList, Gateway.NEvent.tts_chunk "b".toList,
         Gateway.NEvent.tts_chunk "c".toList]).1 =
      List.range (Gateway.audible_chunks
        [Gateway.NEvent.tts_chunk "a".toList, Gateway.NEvent.tts_chunk "b".toList,
         Gateway.NEvent.tts_chunk "c".toList]) ∧
    Gateway.chunk_seqs (Gateway.fwd_run ⟨0, []⟩
        ([Gateway.NEvent.tts_chunk "a".toList] ++ Gateway.NEvent.asr_started ::
          [Gateway.NEvent.tts_chunk "b".toList, Gateway.NEvent.tts_chunk "c".toList])).1 =
      Gateway.chunk_seqs (Gateway.fwd_run ⟨0, []⟩
        ([Gateway.NEvent.tts_chunk "a".toList] ++ [Gateway.NEvent.asr_started])).1 ++
        List.range (Gateway.audible_chunks
          [Gateway.NEvent.tts_chunk "b".toList, Gateway.NEvent.tts_chunk "c".toList]) :=
  ⟨C5_tts_chunk_sequencing.1
     [Gateway.NEvent.tts_chunk "a".toList, Gateway.NEvent.tts_chunk "b".toList,
      Gateway.NEvent.tts_chunk "c".toList] [] (fun e he => by fin_cases he <;> rfl),
   C5_tts_chunk_sequencing.2.1 [Gateway.NEvent.tts_chunk "a".toList]
     [Gateway.NEvent.tts_chunk "b".toList, Gateway.NEvent.tts_chunk "c".toList]
     ⟨0, []⟩ (by decide) (fun e he => by fin_cases he <;> rfl)⟩

/-- C4 (corrected): on a client text frame that fails JSON decoding the
gateway sends exactly one error envelope whose code is UNKNOWN_ERROR and
whose message is the Chinese text 无效的 JSON 格式 followed by the decode
error, and the reader loop continues (the socket stays open).  The
message does not contain the English substring claimed by the spec. -/
theorem C4_invalid_json (raw e : List Char)
    (h : Gateway.json_loads_text raw = .error e) :
    Gateway.process_client_text raw =
      (.error_sent Gateway.UNKNOWN_ERROR ("无效的 JSON 格式: ".toList ++ e), true) ∧
    "无效的 JSON 格式".toList <:+: ("无效的 JSON 格式: ".toList ++ e) := by
  constructor
  · rw [Gateway.process_client_text, h]
  · refine ⟨[], ": ".toList ++ e, ?_⟩
    rw [List.nil_append, ← List.append_assoc]
    rfl

/-- Witness for C4_invalid_json at the malformed frame of two opening
braces. -/
theorem C4_invalid_json_witness :
    Gateway.process_client_text "\x7b\x7b".toList =
      (.error_sent Gateway.UNKNOWN_ERROR ("无效的 JSON 格式: ".toList ++
        "Expecting property name enclosed in double quotes".toList), true) ∧
    "无效的 JSON 格式".toList <:+: ("无效的 JSON 格式: ".toList ++
      "Expecting property name enclosed in double quotes".toList) :=
  C4_invalid_json "\x7b\x7b".toList
    "Expecting property name enclosed in double quotes".toList rfl

/-- C4 counterexample: for the frame of two opening braces the error
envelope is sent with code UNKNOWN_ERROR and the loop continues, but the
message does not contain the substring claimed by the spec. -/
theorem C4_counterexample :
    (Gateway.process_client_text "\x7b\x7b".toList).1 =
      .error_sent "UNKNOWN_ERROR".toList
        "无效的 JSON 格式: Expecting property name enclosed in double quotes".toList ∧
    ¬ ("Invalid JSON".toList <:+:
        "无效的 JSON 格式: Expecting property name enclosed in double quotes".toList) ∧
    (Gateway.process_client_text "\x7b\x7b".toList).2 = true := by
  refine ⟨rfl, ?_, rfl⟩
  decide
